import Mathlib

/-!
# Context loading and registry credential resolution

A shallow embedding of

* `pkg/engine/factories/contextloaderfactory.go` (`DefaultContextLoaderFactory`,
  `WithInitializer`, `contextLoader.Load`, `contextLoader.newLoader`), and
* `pkg/registryclient/registryKeychain.go` (`registrykeychain.Resolve`,
  `isGHCRRegistry`, `isDefaultRegistry`, `fileExists`).

Mutable Go objects are modelled by explicit state passing; every call of an
external collaborator is additionally recorded in a trace of events, so that
"is constructed / registered / executed" are statements about that trace.
-/

namespace Kyverno

/-! ## Go errors -/

/-- A Go `error` value: a message and, for wrapping errors, the wrapped cause. -/
inductive GoError where
  | leaf (msg : String)
  | wrap (msg : String) (inner : GoError)
  deriving DecidableEq, Repr

/-- The method `Error()`: the message of an error. -/
def GoError.Error : GoError → String
  | .leaf msg => msg
  | .wrap msg _ => msg

/-- The function `errors.Unwrap`: the wrapped cause, if the error wraps one. -/
def GoError.Unwrap : GoError → Option GoError
  | .leaf _ => none
  | .wrap _ inner => some inner

/-- The function `errors.Is` on this model: `target` occurs in the `Unwrap` chain of `e`. -/
def errorsIs (e target : GoError) : Bool :=
  decide (e = target) ||
    match e with
    | .leaf _ => false
    | .wrap _ inner => errorsIs inner target

/-- The call `fmt.Errorf(pfx + "%s", arg)`: the verb is `%s`, not `%w`, so the result is a
fresh error that wraps nothing. -/
def fmtErrorf (pfx arg : String) : GoError :=
  .leaf (pfx ++ arg)

/-- Equality of Go results (`Except`) is decidable when errors and values are. -/
instance instDecidableEqExcept {ε α : Type} [DecidableEq ε] [DecidableEq α] :
    DecidableEq (Except ε α)
  | .ok a, .ok b =>
    if h : a = b then isTrue (by rw [h]) else isFalse (by intro h2; cases h2; exact h rfl)
  | .error a, .error b =>
    if h : a = b then isTrue (by rw [h]) else isFalse (by intro h2; cases h2; exact h rfl)
  | .ok _, .error _ => isFalse (by intro h; cases h)
  | .error _, .ok _ => isFalse (by intro h; cases h)

/-! ## Context entries and collaborators -/

/-- Modelled from the spec: the `ConfigMap` variant of `kyvernov1.ContextEntry`, a reference
(namespace, name) to a cluster ConfigMap. -/
structure ConfigMapReference where
  Name : String
  Namespace : String
  deriving DecidableEq, Repr

/-- Modelled from the spec: the `APICall` variant of `kyvernov1.ContextEntry`, a call
specification (path, verb, body template). -/
structure ContextAPICall where
  URLPath : String
  Method : String
  Data : String
  deriving DecidableEq, Repr

/-- Modelled from the spec: the `ImageRegistry` variant of `kyvernov1.ContextEntry`, an image
reference plus extraction rules. -/
structure ImageRegistry where
  Reference : String
  JMESPath : String
  deriving DecidableEq, Repr

/-- Modelled from the spec: the `Variable` variant of `kyvernov1.ContextEntry`, a query-language
expression. -/
structure Variable where
  Value : String
  JMESPath : String
  deriving DecidableEq, Repr

/-- The type `kyvernov1.ContextEntry` as `Load` and `newLoader` use it: a name and four
nil-able variant pointers (`none` is Go `nil`). -/
structure ContextEntry where
  Name : String
  ConfigMap : Option ConfigMapReference
  APICall : Option ContextAPICall
  ImageRegistry : Option ImageRegistry
  Variable : Option Variable
  deriving DecidableEq, Repr

/-- A `context.Context` handle. -/
structure Context where
  id : Nat
  deriving DecidableEq, Repr

/-- A `jmespath.Interface` handle. -/
structure JMESPath where
  id : Nat
  deriving DecidableEq, Repr

/-- An `engineapi.ConfigmapResolver` handle. -/
structure ConfigmapResolver where
  id : Nat
  deriving DecidableEq, Repr

/-- An `engineapi.RawClient` handle. -/
structure RawClient where
  id : Nat
  deriving DecidableEq, Repr

/-- An `engineapi.RegistryClientFactory` handle. -/
structure RegistryClientFactory where
  id : Nat
  deriving DecidableEq, Repr

/-- An `imageverifycache.Client` handle. -/
structure ImageVerifyCache where
  id : Nat
  deriving DecidableEq, Repr

/-- The values built by `loaders.NewConfigMapLoader`, `loaders.NewAPILoader`,
`loaders.NewImageDataLoader` and `loaders.NewVariableLoader`: each records the arguments the
constructor captures. -/
inductive Loader where
  | configMap (ctx : Context) (entry : ContextEntry) (resolver : ConfigmapResolver)
  | api (ctx : Context) (entry : ContextEntry) (jp : JMESPath) (client : RawClient)
  | imageData (ctx : Context) (entry : ContextEntry) (jp : JMESPath)
      (rclientFactory : RegistryClientFactory)
  | variable (entry : ContextEntry) (jp : JMESPath)
  deriving DecidableEq, Repr

/-- An `enginecontext.DeferredLoader` value: it reports a name and wraps a loader. -/
structure DeferredLoader where
  Name : String
  loader : Loader
  deriving DecidableEq, Repr

/-- The observable calls `Load` makes on its collaborators. -/
inductive Event where
  /-- The call `init(jsonContext)` of the initializer registered at position `i`. -/
  | initializer (i : Nat)
  /-- The call `enginecontext.NewDeferredLoader(entry.Name, ldr, l.logger)` on a freshly
  built loader `ldr`. -/
  | construct (ldr : Loader)
  /-- The call `jsonContext.AddDeferredLoader(loader)`. -/
  | register (d : DeferredLoader)
  /-- The call `loader.LoadData()`. -/
  | execute (d : DeferredLoader)
  /-- The call `l.logger.Info(msg, name)`. -/
  | logInfo (msg : String) (name : String)
  deriving DecidableEq, Repr

/-- The type `engineapi.Initializer`: `func(jsonContext enginecontext.Interface) error`, acting
on the state `σ` of the evaluation context. -/
abbrev Initializer (σ : Type) := σ → σ × Option GoError

/-- The external collaborators of `Load`, acting on the state `σ` of the evaluation context. -/
structure World (σ : Type) where
  /-- The call `toggle.FromContext(ctx).EnableDeferredLoading()`. -/
  EnableDeferredLoading : Context → σ → Bool
  /-- The call `enginecontext.NewDeferredLoader(name, ldr, logger)`: a Go pair
  `(DeferredLoader, error)`. -/
  NewDeferredLoader : String → Loader → Option DeferredLoader × Option GoError
  /-- The call `jsonContext.AddDeferredLoader(loader)`. -/
  AddDeferredLoader : DeferredLoader → σ → σ × Option GoError
  /-- The call `loader.LoadData()`. -/
  LoadData : DeferredLoader → σ → σ × Option GoError

/-- The struct `contextLoader` (its logger is left out: logging is recorded as events). -/
structure contextLoader (σ : Type) where
  cmResolver : Option ConfigmapResolver
  initializers : List (Initializer σ)

/-- The type `ContextLoaderFactoryOptions`: `func(*contextLoader)`. -/
abbrev ContextLoaderFactoryOptions (σ : Type) := contextLoader σ → contextLoader σ

/-- The function `WithInitializer`: appends the initializer to `cl.initializers`. -/
def WithInitializer {σ : Type} (initializer : Initializer σ) : ContextLoaderFactoryOptions σ :=
  fun cl => { cl with initializers := cl.initializers ++ [initializer] }

/-- The function `DefaultContextLoaderFactory`: a loader with the given resolver and no
initializer, to which the options are applied in order. -/
def DefaultContextLoaderFactory {σ : Type} (cmResolver : Option ConfigmapResolver)
    (opts : List (ContextLoaderFactoryOptions σ)) : contextLoader σ :=
  opts.foldl (fun cl o => o cl) { cmResolver := cmResolver, initializers := [] }

/-- What a run of `Load` leaves behind: the state of the evaluation context, the calls made
and the returned `error` (`none` is `nil`). -/
structure Outcome (σ : Type) where
  state : σ
  trace : List Event
  err : Option GoError
  deriving DecidableEq, Repr

/-- The outcome `r` with the events `evs` placed before its trace. -/
def Outcome.after {σ : Type} (evs : List Event) (r : Outcome σ) : Outcome σ :=
  { r with trace := evs ++ r.trace }

/-- The method `contextLoader.newLoader`: the Go pair `(DeferredLoader, error)` it returns,
preceded by the calls it makes. -/
def newLoader {σ : Type} (W : World σ) (l : contextLoader σ) (ctx : Context) (jp : JMESPath)
    (client : Option RawClient) (rclientFactory : Option RegistryClientFactory)
    (entry : ContextEntry) : List Event × Option DeferredLoader × Option GoError :=
  if entry.ConfigMap.isSome then
    match l.cmResolver with
    | some cmResolver =>
      let ldr := Loader.configMap ctx entry cmResolver
      ([Event.construct ldr], W.NewDeferredLoader entry.Name ldr)
    | none =>
      ([Event.logInfo "disabled loading of ConfigMap context entry %s" entry.Name], none, none)
  else if entry.APICall.isSome then
    match client with
    | some client =>
      let ldr := Loader.api ctx entry jp client
      ([Event.construct ldr], W.NewDeferredLoader entry.Name ldr)
    | none =>
      ([Event.logInfo "disabled loading of APICall context entry %s" entry.Name], none, none)
  else if entry.ImageRegistry.isSome then
    match rclientFactory with
    | some rclientFactory =>
      let ldr := Loader.imageData ctx entry jp rclientFactory
      ([Event.construct ldr], W.NewDeferredLoader entry.Name ldr)
    | none =>
      ([Event.logInfo "disabled loading of ImageRegistry context entry %s" entry.Name],
        none, none)
  else if entry.Variable.isSome then
    let ldr := Loader.variable entry jp
    ([Event.construct ldr], W.NewDeferredLoader entry.Name ldr)
  else
    ([], none,
      some (fmtErrorf "missing ConfigMap|APICall|ImageRegistry|Variable in context entry "
        entry.Name))

/-- The first loop of `Load`: the initializers run in order from position `i`, the first
error is returned at once. -/
def runInitializers {σ : Type} : List (Initializer σ) → Nat → σ → Outcome σ
  | [], _, s => ⟨s, [], none⟩
  | init :: rest, i, s =>
    match init s with
    | (s1, some err) => ⟨s1, [Event.initializer i], some err⟩
    | (s1, none) => (runInitializers rest (i + 1) s1).after [Event.initializer i]

/-- The second loop of `Load`, over the context entries. -/
def loadEntries {σ : Type} (W : World σ) (l : contextLoader σ) (ctx : Context) (jp : JMESPath)
    (client : Option RawClient) (rclientFactory : Option RegistryClientFactory) :
    List ContextEntry → σ → Outcome σ
  | [], s => ⟨s, [], none⟩
  | entry :: rest, s =>
    match newLoader W l ctx jp client rclientFactory entry with
    | (evs, _, some _) =>
      ⟨s, evs, some (fmtErrorf "failed to create deferred loader for context entry " entry.Name)⟩
    | (evs, none, none) =>
      (loadEntries W l ctx jp client rclientFactory rest s).after evs
    | (evs, some loader, none) =>
      if W.EnableDeferredLoading ctx s then
        match W.AddDeferredLoader loader s with
        | (s1, some err) => ⟨s1, evs ++ [Event.register loader], some err⟩
        | (s1, none) =>
          (loadEntries W l ctx jp client rclientFactory rest s1).after
            (evs ++ [Event.register loader])
      else
        match W.LoadData loader s with
        | (s1, some err) => ⟨s1, evs ++ [Event.execute loader], some err⟩
        | (s1, none) =>
          (loadEntries W l ctx jp client rclientFactory rest s1).after
            (evs ++ [Event.execute loader])

/-- The method `contextLoader.Load`; `jsonContext` is the state of the evaluation context. -/
def Load {σ : Type} (W : World σ) (l : contextLoader σ) (ctx : Context) (jp : JMESPath)
    (client : Option RawClient) (rclientFactory : Option RegistryClientFactory)
    (_ivCache : Option ImageVerifyCache) (contextEntries : List ContextEntry)
    (jsonContext : σ) : Outcome σ :=
  let r := runInitializers l.initializers 0 jsonContext
  match r.err with
  | some _ => r
  | none => (loadEntries W l ctx jp client rclientFactory contextEntries r.state).after r.trace

/-! ## Registry keychain -/

/-- The constant `name.DefaultRegistry` of go-containerregistry. -/
def name_DefaultRegistry : String := "index.docker.io"

/-- The constant `DefaultAuthKey`. -/
def DefaultAuthKey : String := "https://" ++ name_DefaultRegistry ++ "/v1/"

/-- The constant `ghcrHostname`. -/
def ghcrHostname : String := "ghcr.io"

/-- The constant `defaultHostname`. -/
def defaultHostname : String := "docker.io"

/-- The interface `authn.Resource`: the results of its methods `String()` and
`RegistryStr()`. -/
structure Resource where
  RegistryStr : String
  String : String
  deriving DecidableEq, Repr

/-- The struct `types.AuthConfig` of the docker CLI. -/
structure TypesAuthConfig where
  Username : String
  Password : String
  Auth : String
  Email : String
  ServerAddress : String
  IdentityToken : String
  RegistryToken : String
  deriving DecidableEq, Repr

/-- The zero value of `types.AuthConfig` (the variable `empty` of `Resolve`). -/
def TypesAuthConfig.empty : TypesAuthConfig :=
  ⟨"", "", "", "", "", "", ""⟩

/-- The struct `authn.AuthConfig`. -/
structure AuthnAuthConfig where
  Username : String
  Password : String
  Auth : String
  IdentityToken : String
  RegistryToken : String
  deriving DecidableEq, Repr

/-- An `authn.Authenticator` as `Resolve` builds it: `authn.Anonymous` or
`authn.FromConfig(cfg)`. -/
inductive Authenticator where
  | Anonymous
  | FromConfig (cfg : AuthnAuthConfig)
  deriving DecidableEq, Repr

/-- A parsed `*url.URL`, as far as `Resolve` reads it: the result of `Hostname()`. -/
structure URL where
  Hostname : String
  deriving DecidableEq, Repr

/-- An `os.FileInfo`, as far as `fileExists` reads it. -/
structure FileInfo where
  IsDir : Bool
  deriving DecidableEq, Repr

/-- An open `*os.File`. -/
structure File where
  id : Nat
  deriving DecidableEq, Repr

/-- A loaded `*configfile.ConfigFile`: its method `GetAuthConfig`. -/
structure ConfigFile where
  GetAuthConfig : String → Except GoError TypesAuthConfig

/-- The process environment, the file system and the library functions `Resolve` calls. -/
structure Env where
  /-- The function `os.Getenv`: the empty string for an unset variable. -/
  Getenv : String → String
  /-- The function `url.Parse`. -/
  urlParse : String → Except GoError URL
  /-- The function `homedir.Dir`. -/
  homedirDir : Except GoError String
  /-- The function `filepath.Join` on two elements. -/
  filepathJoin : String → String → String
  /-- The function `os.Stat`. -/
  osStat : String → Except GoError FileInfo
  /-- The function `Config.Load` of the docker CLI, on a configuration directory. -/
  ConfigLoad : String → Except GoError ConfigFile
  /-- The function `os.Open`. -/
  osOpen : String → Except GoError File
  /-- The function `Config.LoadFromReader` of the docker CLI. -/
  LoadFromReader : File → Except GoError ConfigFile

/-- The function `isGHCRRegistry`. -/
def isGHCRRegistry (E : Env) (r : Resource) : Bool :=
  match E.urlParse ("https://" ++ r.String) with
  | .error _ => false
  | .ok serverURL => serverURL.Hostname == ghcrHostname

/-- The function `fileExists`. -/
def fileExists (E : Env) (path : String) : Bool :=
  match E.osStat path with
  | .error _ => false
  | .ok fi => !fi.IsDir

/-- The function `isDefaultRegistry`. -/
def isDefaultRegistry (E : Env) (r : Resource) : Bool :=
  match E.urlParse ("https://" ++ r.String) with
  | .error _ => false
  | .ok serverURL => serverURL.Hostname == defaultHostname

/-- The loop of `Resolve` over the keys `r.String()`, `r.RegistryStr()`: returns the value
of `cfg` when the loop is left, or the error of a failed lookup. The second argument is the
value of `cfg` before the iteration. -/
def lookupKeys (cf : ConfigFile) : List String → TypesAuthConfig → Except GoError TypesAuthConfig
  | [], cfg => .ok cfg
  | key :: rest, _ =>
    let key := if key = name_DefaultRegistry then DefaultAuthKey else key
    match cf.GetAuthConfig key with
    | .error err => .error err
    | .ok cfg =>
      let cfg := { cfg with ServerAddress := "" }
      if cfg ≠ TypesAuthConfig.empty then .ok cfg else lookupKeys cf rest cfg

/-- The part of `Resolve` after the credential file `cf` is loaded: the lookup loop and the
construction of the authenticator. -/
def resolveFromConfig (cf : ConfigFile) (r : Resource) : Except GoError Authenticator :=
  match lookupKeys cf [r.String, r.RegistryStr] TypesAuthConfig.empty with
  | .error err => .error err
  | .ok cfg =>
    if cfg = TypesAuthConfig.empty then .ok Authenticator.Anonymous
    else
      .ok (Authenticator.FromConfig
        { Username := cfg.Username
          Password := cfg.Password
          Auth := cfg.Auth
          IdentityToken := cfg.IdentityToken
          RegistryToken := cfg.RegistryToken })

/-- The value of `foundDockerConfig` in `Resolve` when the credential file is chosen. -/
def foundDockerConfig (E : Env) : Bool :=
  let found :=
    match E.homedirDir with
    | .ok home => fileExists E (E.filepathJoin home ".docker/config.json")
    | .error _ => false
  if !found && E.Getenv "DOCKER_CONFIG" ≠ "" then
    fileExists E (E.filepathJoin (E.Getenv "DOCKER_CONFIG") "config.json")
  else found

/-- The method `registrykeychain.Resolve`: the Go pair `(authn.Authenticator, error)`, either
an authenticator with a nil error or a nil authenticator with an error. -/
def Resolve (E : Env) (r : Resource) : Except GoError Authenticator :=
  if isGHCRRegistry E r then
    if !isGHCRRegistry E r then .ok Authenticator.Anonymous
    else
      let username := E.Getenv "GITHUB_ACTOR"
      let username := if username = "" then "unset" else username
      let tok := E.Getenv "GITHUB_TOKEN"
      if tok ≠ "" then
        .ok (Authenticator.FromConfig
          { Username := username, Password := tok, Auth := "", IdentityToken := "",
            RegistryToken := "" })
      else .ok Authenticator.Anonymous
  else if isDefaultRegistry E r then
    if !isDefaultRegistry E r then .ok Authenticator.Anonymous
    else if foundDockerConfig E then
      match E.ConfigLoad (E.Getenv "DOCKER_CONFIG") with
      | .error err => .error err
      | .ok cf => resolveFromConfig cf r
    else
      match E.osOpen (E.filepathJoin (E.Getenv "XDG_RUNTIME_DIR") "containers/auth.json") with
      | .error _ => .ok Authenticator.Anonymous
      | .ok f =>
        match E.LoadFromReader f with
        | .error err => .error err
        | .ok cf => resolveFromConfig cf r
  else .ok Authenticator.Anonymous

/-! ## Reading a trace -/

/-- The loaders on which `LoadData` was called, in call order. -/
def executed (tr : List Event) : List DeferredLoader :=
  tr.filterMap fun ev => match ev with
    | .execute d => some d
    | _ => none

/-- The loaders passed to `AddDeferredLoader`, in call order. -/
def registered (tr : List Event) : List DeferredLoader :=
  tr.filterMap fun ev => match ev with
    | .register d => some d
    | _ => none

/-- The loaders that were built and handed to `NewDeferredLoader`, in call order. -/
def constructed (tr : List Event) : List Loader :=
  tr.filterMap fun ev => match ev with
    | .construct ldr => some ldr
    | _ => none

/-- The positions of the initializers that were called, in call order. -/
def initialized (tr : List Event) : List Nat :=
  tr.filterMap fun ev => match ev with
    | .initializer i => some i
    | _ => none

/-- Whether the event is a log line. -/
def Event.isLog : Event → Bool
  | .logInfo _ _ => true
  | _ => false

/-- The trace without its log lines. -/
def withoutLogs (tr : List Event) : List Event :=
  tr.filter fun ev => !ev.isLog

/-- The loader `newLoader` hands to `Load` for the entry: `none` when the entry is skipped or
its construction fails. -/
def loaderOf {σ : Type} (W : World σ) (l : contextLoader σ) (ctx : Context) (jp : JMESPath)
    (client : Option RawClient) (rclientFactory : Option RegistryClientFactory)
    (entry : ContextEntry) : Option DeferredLoader :=
  match newLoader W l ctx jp client rclientFactory entry with
  | (_, some d, none) => some d
  | _ => none

/-- The four variants of a context entry. -/
inductive VariantKind where
  | ConfigMap
  | APICall
  | ImageRegistry
  | Variable
  deriving DecidableEq, Repr

/-- The variants set (non-nil) on the entry, in the order `ConfigMap`, `APICall`,
`ImageRegistry`, `Variable`. -/
def variantsSet (e : ContextEntry) : List VariantKind :=
  (if e.ConfigMap.isSome then [VariantKind.ConfigMap] else []) ++
  (if e.APICall.isSome then [VariantKind.APICall] else []) ++
  (if e.ImageRegistry.isSome then [VariantKind.ImageRegistry] else []) ++
  (if e.Variable.isSome then [VariantKind.Variable] else [])

/-- The variant a loader was built for. -/
def Loader.kind : Loader → VariantKind
  | .configMap _ _ _ => VariantKind.ConfigMap
  | .api _ _ _ _ => VariantKind.APICall
  | .imageData _ _ _ _ => VariantKind.ImageRegistry
  | .variable _ _ => VariantKind.Variable

/-- The context entry a loader captured. -/
def Loader.entry : Loader → ContextEntry
  | .configMap _ entry _ => entry
  | .api _ entry _ _ => entry
  | .imageData _ entry _ _ => entry
  | .variable entry _ => entry

/-- Whether the collaborator a variant needs is configured (non-nil); the `Variable` variant
needs none. -/
def collaboratorConfigured {σ : Type} (l : contextLoader σ) (client : Option RawClient)
    (rclientFactory : Option RegistryClientFactory) : VariantKind → Bool
  | .ConfigMap => l.cmResolver.isSome
  | .APICall => client.isSome
  | .ImageRegistry => rclientFactory.isSome
  | .Variable => true

/-- The entry is one that `newLoader` skips: its first set variant is `ConfigMap`, `APICall`
or `ImageRegistry` and the collaborator of that variant is nil. -/
def skippedEntry {σ : Type} (l : contextLoader σ) (client : Option RawClient)
    (rclientFactory : Option RegistryClientFactory) (e : ContextEntry) : Prop :=
  (e.ConfigMap.isSome = true ∧ l.cmResolver = none) ∨
  (e.ConfigMap = none ∧ e.APICall.isSome = true ∧ client = none) ∨
  (e.ConfigMap = none ∧ e.APICall = none ∧ e.ImageRegistry.isSome = true ∧
    rclientFactory = none)

/-! ## Example collaborators and entries -/

/-- A world over a context that lists the names written to it: every loader is built,
registration records `deferred:` and the name, `LoadData` records the name and fails exactly
for the loader named `bad`. -/
def exWorld (deferred : Bool) : World (List String) where
  EnableDeferredLoading := fun _ _ => deferred
  NewDeferredLoader := fun name ldr => (some ⟨name, ldr⟩, none)
  AddDeferredLoader := fun d s => (s ++ ["deferred:" ++ d.Name], none)
  LoadData := fun d s =>
    if d.Name = "bad" then (s, some (GoError.leaf "load failed")) else (s ++ [d.Name], none)

/-- A world like `exWorld false` in which `NewDeferredLoader` fails. -/
def exWorldNoLoader : World (List String) where
  EnableDeferredLoading := fun _ _ => false
  NewDeferredLoader := fun _ _ => (none, some (GoError.leaf "bad name"))
  AddDeferredLoader := fun d s => (s ++ ["deferred:" ++ d.Name], none)
  LoadData := fun d s => (s ++ [d.Name], none)

/-- An initializer that seeds the value `request`. -/
def exInitOk : Initializer (List String) :=
  fun s => (s ++ ["request"], none)

/-- An initializer that fails. -/
def exInitFail : Initializer (List String) :=
  fun s => (s, some (GoError.leaf "init failed"))

/-- A context loader with a ConfigMap resolver and one initializer. -/
def exLoader : contextLoader (List String) :=
  { cmResolver := some ⟨1⟩, initializers := [exInitOk] }

/-- A context loader without ConfigMap resolver and without initializers. -/
def exLoaderBare : contextLoader (List String) :=
  { cmResolver := none, initializers := [] }

/-- A context loader whose second initializer fails. -/
def exLoaderFailing : contextLoader (List String) :=
  { cmResolver := none, initializers := [exInitOk, exInitFail, exInitOk] }

/-- An entry with only the `Variable` variant set. -/
def exVar (name : String) : ContextEntry :=
  { Name := name, ConfigMap := none, APICall := none, ImageRegistry := none,
    Variable := some ⟨"1", ""⟩ }

/-- An entry with only the `ConfigMap` variant set. -/
def exConfigMap (name : String) : ContextEntry :=
  { Name := name, ConfigMap := some ⟨"cm", "default"⟩, APICall := none, ImageRegistry := none,
    Variable := none }

/-- An entry with no variant set. -/
def exMalformed : ContextEntry :=
  { Name := "broken", ConfigMap := none, APICall := none, ImageRegistry := none,
    Variable := none }

/-- An entry with both the `ConfigMap` and the `Variable` variant set. -/
def exBoth : ContextEntry :=
  { Name := "both", ConfigMap := some ⟨"cm", "default"⟩, APICall := none,
    ImageRegistry := none, Variable := some ⟨"1", ""⟩ }

/-! ## Reading the credential lookup -/

/-- The key `Resolve` looks a name up under: `DefaultAuthKey` for `name.DefaultRegistry`,
the name itself otherwise. -/
def authKey (key : String) : String :=
  if key = name_DefaultRegistry then DefaultAuthKey else key

/-- The entry with its server address cleared. -/
def TypesAuthConfig.cleared (cfg : TypesAuthConfig) : TypesAuthConfig :=
  { cfg with ServerAddress := "" }

/-- The user name, password, auth blob, identity token and registry token of an entry. -/
def TypesAuthConfig.toAuthn (cfg : TypesAuthConfig) : AuthnAuthConfig :=
  { Username := cfg.Username
    Password := cfg.Password
    Auth := cfg.Auth
    IdentityToken := cfg.IdentityToken
    RegistryToken := cfg.RegistryToken }

/-- The credential file `Resolve` loads for a default-registry resource, parsed: `none` when
no file is found at any location, an error when the file that was found does not parse. -/
def loadCredentialFile (E : Env) : Option (Except GoError ConfigFile) :=
  if foundDockerConfig E then some (E.ConfigLoad (E.Getenv "DOCKER_CONFIG"))
  else
    match E.osOpen (E.filepathJoin (E.Getenv "XDG_RUNTIME_DIR") "containers/auth.json") with
    | .error _ => none
    | .ok f => some (E.LoadFromReader f)

/-- The error of the entry lookup in a parsed credential file, if it fails: the lookup under
the host key, or, when that yields an empty entry, the lookup under the registry key. -/
def lookupError (cf : ConfigFile) (r : Resource) : Option GoError :=
  match cf.GetAuthConfig (authKey r.String) with
  | .error err => some err
  | .ok cfg =>
    if cfg.cleared = TypesAuthConfig.empty then
      match cf.GetAuthConfig (authKey r.RegistryStr) with
      | .error err => some err
      | .ok _ => none
    else none

/-- No credential file exists at any of the three locations: not in the home directory, not
in the directory `DOCKER_CONFIG` names, and the file in the runtime directory cannot be
opened. -/
def noCredentialFile (E : Env) : Prop :=
  (∀ home, E.homedirDir = .ok home →
    fileExists E (E.filepathJoin home ".docker/config.json") = false) ∧
  (E.Getenv "DOCKER_CONFIG" ≠ "" →
    fileExists E (E.filepathJoin (E.Getenv "DOCKER_CONFIG") "config.json") = false) ∧
  (∃ err, E.osOpen (E.filepathJoin (E.Getenv "XDG_RUNTIME_DIR") "containers/auth.json") =
    .error err)

/-! ## Example environments -/

/-- A `url.Parse` for the bare hosts of the examples. -/
def exUrlParse (rawURL : String) : Except GoError URL :=
  if rawURL = "https://ghcr.io" then .ok ⟨"ghcr.io"⟩
  else if rawURL = "https://docker.io" then .ok ⟨"docker.io"⟩
  else if rawURL = "https://index.docker.io" then .ok ⟨"index.docker.io"⟩
  else if rawURL = "https://quay.io" then .ok ⟨"quay.io"⟩
  else .error (GoError.leaf "parse error")

/-- A credential file with one entry, under the key `docker.io`. -/
def exConfigFile : ConfigFile where
  GetAuthConfig := fun key =>
    if key = "docker.io" then .ok ⟨"user", "secret", "", "user@example.com", "docker.io", "", ""⟩
    else .ok TypesAuthConfig.empty

/-- A CI environment: actor and token are set, no credential file exists anywhere. -/
def exEnvCI : Env where
  Getenv := fun k =>
    if k = "GITHUB_ACTOR" then "octocat" else if k = "GITHUB_TOKEN" then "t0ken" else ""
  urlParse := exUrlParse
  homedirDir := .ok "/home/u"
  filepathJoin := fun a b => a ++ "/" ++ b
  osStat := fun _ => .error (GoError.leaf "no such file")
  ConfigLoad := fun _ => .error (GoError.leaf "unreachable")
  osOpen := fun _ => .error (GoError.leaf "no such file")
  LoadFromReader := fun _ => .error (GoError.leaf "unreachable")

/-- An environment without CI variables whose home directory holds a credential file; `load`
is what parsing that file gives. -/
def exEnvDocker (load : Except GoError ConfigFile) : Env where
  Getenv := fun _ => ""
  urlParse := exUrlParse
  homedirDir := .ok "/home/u"
  filepathJoin := fun a b => a ++ "/" ++ b
  osStat := fun path =>
    if path = "/home/u/.docker/config.json" then .ok ⟨false⟩
    else .error (GoError.leaf "no such file")
  ConfigLoad := fun _ => load
  osOpen := fun _ => .error (GoError.leaf "no such file")
  LoadFromReader := fun _ => .error (GoError.leaf "unreachable")

/-! ## Reading the initializers -/

/-- The state of the evaluation context after the initializers have been applied to it one
after the other, in list order. -/
def initializedState {σ : Type} (inits : List (Initializer σ)) (s : σ) : σ :=
  inits.foldl (fun s init => (init s).1) s

/-- No initializer of the list fails when they are applied in list order from `s`: each one
returns a nil error on the state its predecessors leave. -/
def initializersSucceed {σ : Type} (inits : List (Initializer σ)) (s : σ) : Prop :=
  ∀ pre init post, inits = pre ++ init :: post → (init (initializedState pre s)).2 = none

/-- An initializer that seeds the value `user`. -/
def exInitUser : Initializer (List String) :=
  fun s => (s ++ ["user"], none)

/-- A context loader with two initializers that succeed. -/
def exLoaderTwo : contextLoader (List String) :=
  { cmResolver := none, initializers := [exInitOk, exInitUser] }

/-! ## Reading which credential configuration is loaded -/

/-- A `config.json` is found: in the `.docker` directory of the home directory, or in the
directory `DOCKER_CONFIG` names. -/
def configFound (E : Env) : Prop :=
  (∃ home, E.homedirDir = .ok home ∧
    fileExists E (E.filepathJoin home ".docker/config.json") = true) ∨
  (E.Getenv "DOCKER_CONFIG" ≠ "" ∧
    fileExists E (E.filepathJoin (E.Getenv "DOCKER_CONFIG") "config.json") = true)

/-- The credential configuration `Resolve` loads gives `res`: when a `config.json` is found,
`res` is what `Config.Load` gives for the directory `DOCKER_CONFIG` names (whichever file was
found); when none is found and `auth.json` in the runtime directory opens, `res` is what
parsing that file gives. -/
def LoadsConfig (E : Env) (res : Except GoError ConfigFile) : Prop :=
  (configFound E ∧ E.ConfigLoad (E.Getenv "DOCKER_CONFIG") = res) ∨
  (¬ configFound E ∧
    ∃ f, E.osOpen (E.filepathJoin (E.Getenv "XDG_RUNTIME_DIR") "containers/auth.json") = .ok f ∧
      E.LoadFromReader f = res)

/-- A file system: the content of the file at a path, if there is one. -/
abbrev FileSystem := String → Option String

/-- A parser for the credential files of the examples: the content `\x7b\x7d` is the
configuration without entries, any other content is malformed. -/
def exParse (content : String) : Except GoError ConfigFile :=
  if content = "\x7b\x7d" then .ok ⟨fun _ => .ok TypesAuthConfig.empty⟩
  else .error (GoError.leaf "invalid character")

/-- The environment over a file system, with home directory `/home/u`. `Config.Load` is that
of the docker CLI: it reads `config.json` in the given directory (the `.docker` directory of
the home directory when the argument is empty), and an absent file gives the configuration
without entries and no error. -/
def exEnvFS (getenv : String → String) (fs : FileSystem) : Env where
  Getenv := getenv
  urlParse := exUrlParse
  homedirDir := .ok "/home/u"
  filepathJoin := fun a b => a ++ "/" ++ b
  osStat := fun path =>
    match fs path with
    | some _ => .ok ⟨false⟩
    | none => .error (GoError.leaf "no such file")
  ConfigLoad := fun dir =>
    match fs ((if dir = "" then "/home/u/.docker" else dir) ++ "/config.json") with
    | some content => exParse content
    | none => .ok ⟨fun _ => .ok TypesAuthConfig.empty⟩
  osOpen := fun path =>
    match fs path with
    | some _ => .ok ⟨0⟩
    | none => .error (GoError.leaf "no such file")
  LoadFromReader := fun _ =>
    match fs (getenv "XDG_RUNTIME_DIR" ++ "/containers/auth.json") with
    | some content => exParse content
    | none => .error (GoError.leaf "bad file descriptor")

/-- A file system whose only file is a malformed `config.json` in the home directory. -/
def exMalformedHome : FileSystem :=
  fun path => if path = "/home/u/.docker/config.json" then some "not json" else none

/-- An environment in which `DOCKER_CONFIG` names the directory `/tmp/dc`. -/
def exGetenvDockerConfig : String → String :=
  fun k => if k = "DOCKER_CONFIG" then "/tmp/dc" else ""

/-! ## Lemmas on the entry loop -/

theorem after_after {σ : Type} (a b : List Event) (r : Outcome σ) :
    (r.after b).after a = r.after (a ++ b) := by
  simp [Outcome.after]

theorem after_nil {σ : Type} (r : Outcome σ) : r.after [] = r := by
  simp [Outcome.after]

theorem loadEntries_append {σ : Type} (W : World σ) (l : contextLoader σ) (ctx : Context)
    (jp : JMESPath) (client : Option RawClient) (rclientFactory : Option RegistryClientFactory)
    (pre post : List ContextEntry) (s : σ) :
    loadEntries W l ctx jp client rclientFactory (pre ++ post) s =
      match (loadEntries W l ctx jp client rclientFactory pre s).err with
      | some _ => loadEntries W l ctx jp client rclientFactory pre s
      | none =>
        (loadEntries W l ctx jp client rclientFactory post
          (loadEntries W l ctx jp client rclientFactory pre s).state).after
          (loadEntries W l ctx jp client rclientFactory pre s).trace := by
  induction pre generalizing s with
  | nil => simp [loadEntries, Outcome.after]
  | cons e pre ih =>
    simp only [List.cons_append, loadEntries]
    simp only [List.append_eq]
    split
    · rfl
    · rw [ih]
      cases h : (loadEntries W l ctx jp client rclientFactory pre s).err <;>
        simp [Outcome.after, h]
    · split
      · split
        · rfl
        · rename_i s1 _
          rw [ih]
          cases h : (loadEntries W l ctx jp client rclientFactory pre s1).err <;>
            simp [Outcome.after, h]
      · split
        · rfl
        · rename_i s1 _
          rw [ih]
          cases h : (loadEntries W l ctx jp client rclientFactory pre s1).err <;>
            simp [Outcome.after, h]

theorem newLoader_events {σ : Type} (W : World σ) (l : contextLoader σ) (ctx : Context)
    (jp : JMESPath) (client : Option RawClient) (rclientFactory : Option RegistryClientFactory)
    (e : ContextEntry) :
    executed (newLoader W l ctx jp client rclientFactory e).1 = [] ∧
    registered (newLoader W l ctx jp client rclientFactory e).1 = [] ∧
    initialized (newLoader W l ctx jp client rclientFactory e).1 = [] := by
  unfold newLoader
  split
  · split <;> simp [executed, registered, initialized]
  · split
    · split <;> simp [executed, registered, initialized]
    · split
      · split <;> simp [executed, registered, initialized]
      · split <;> simp [executed, registered, initialized]

theorem executed_append (a b : List Event) : executed (a ++ b) = executed a ++ executed b := by
  simp [executed, List.filterMap_append]

theorem registered_append (a b : List Event) :
    registered (a ++ b) = registered a ++ registered b := by
  simp [registered, List.filterMap_append]

theorem initialized_append (a b : List Event) :
    initialized (a ++ b) = initialized a ++ initialized b := by
  simp [initialized, List.filterMap_append]

theorem withoutLogs_append (a b : List Event) :
    withoutLogs (a ++ b) = withoutLogs a ++ withoutLogs b := by
  simp [withoutLogs, List.filter_append]

theorem loaderOf_some {σ : Type} {W : World σ} {l : contextLoader σ} {ctx : Context}
    {jp : JMESPath} {client : Option RawClient} {rclientFactory : Option RegistryClientFactory}
    {e : ContextEntry} {evs : List Event} {d : DeferredLoader}
    (h : newLoader W l ctx jp client rclientFactory e = (evs, some d, none)) :
    loaderOf W l ctx jp client rclientFactory e = some d := by
  simp [loaderOf, h]

theorem loaderOf_skip {σ : Type} {W : World σ} {l : contextLoader σ} {ctx : Context}
    {jp : JMESPath} {client : Option RawClient} {rclientFactory : Option RegistryClientFactory}
    {e : ContextEntry} {evs : List Event}
    (h : newLoader W l ctx jp client rclientFactory e = (evs, none, none)) :
    loaderOf W l ctx jp client rclientFactory e = none := by
  simp [loaderOf, h]

theorem loaderOf_err {σ : Type} {W : World σ} {l : contextLoader σ} {ctx : Context}
    {jp : JMESPath} {client : Option RawClient} {rclientFactory : Option RegistryClientFactory}
    {e : ContextEntry} {evs : List Event} {od : Option DeferredLoader} {c : GoError}
    (h : newLoader W l ctx jp client rclientFactory e = (evs, od, some c)) :
    loaderOf W l ctx jp client rclientFactory e = none := by
  cases od <;> simp [loaderOf, h]

theorem loaderOf_eq_some {σ : Type} {W : World σ} {l : contextLoader σ} {ctx : Context}
    {jp : JMESPath} {client : Option RawClient} {rclientFactory : Option RegistryClientFactory}
    {e : ContextEntry} {d : DeferredLoader}
    (h : loaderOf W l ctx jp client rclientFactory e = some d) :
    newLoader W l ctx jp client rclientFactory e =
      ((newLoader W l ctx jp client rclientFactory e).1, some d, none) := by
  rcases hn : newLoader W l ctx jp client rclientFactory e with ⟨evs, od, oe⟩
  cases oe with
  | some c => rw [loaderOf_err hn] at h; cases h
  | none =>
    cases od with
    | none => rw [loaderOf_skip hn] at h; cases h
    | some d0 => rw [loaderOf_some hn] at h; cases h; rfl

theorem loadEntries_eager {σ : Type} (W : World σ) (l : contextLoader σ) (ctx : Context)
    (jp : JMESPath) (client : Option RawClient) (rclientFactory : Option RegistryClientFactory)
    (hmode : ∀ s, W.EnableDeferredLoading ctx s = false) (es : List ContextEntry) (s : σ) :
    registered (loadEntries W l ctx jp client rclientFactory es s).trace = [] ∧
    executed (loadEntries W l ctx jp client rclientFactory es s).trace <+:
      es.filterMap (loaderOf W l ctx jp client rclientFactory) ∧
    ((loadEntries W l ctx jp client rclientFactory es s).err = none →
      executed (loadEntries W l ctx jp client rclientFactory es s).trace =
        es.filterMap (loaderOf W l ctx jp client rclientFactory)) := by
  induction es generalizing s with
  | nil => simp [loadEntries, executed, registered]
  | cons e es ih =>
    obtain ⟨hx, hr, _⟩ := newLoader_events W l ctx jp client rclientFactory e
    rcases hn : newLoader W l ctx jp client rclientFactory e with ⟨evs, od, oe⟩
    rw [hn] at hx hr
    simp only at hx hr
    cases oe with
    | some c =>
      simp only [loadEntries, hn, List.filterMap_cons, loaderOf_err hn]
      simp [hx, hr]
    | none =>
      cases od with
      | none =>
        simp only [loadEntries, hn, List.filterMap_cons, loaderOf_skip hn, Outcome.after,
          executed_append, registered_append, hx, hr, List.nil_append]
        exact ih s
      | some d =>
        simp only [loadEntries, hn, hmode, List.filterMap_cons, loaderOf_some hn]
        rcases hd : W.LoadData d s with ⟨s1, oe1⟩
        cases oe1 with
        | some c =>
          simp only [Bool.false_eq_true, if_false, if_true, executed_append, registered_append,
            hx, hr, List.nil_append]
          simp [executed, registered]
        | none =>
          obtain ⟨i1, i2, i3⟩ := ih s1
          simp only [Bool.false_eq_true, if_false, Outcome.after, executed_append,
            registered_append, hx, hr, List.nil_append, i1]
          refine ⟨by simp [registered], ?_, ?_⟩
          · simpa [executed] using i2
          · intro h
            simpa [executed] using i3 h

theorem loadEntries_deferred {σ : Type} (W : World σ) (l : contextLoader σ) (ctx : Context)
    (jp : JMESPath) (client : Option RawClient) (rclientFactory : Option RegistryClientFactory)
    (hmode : ∀ s, W.EnableDeferredLoading ctx s = true) (es : List ContextEntry) (s : σ) :
    executed (loadEntries W l ctx jp client rclientFactory es s).trace = [] ∧
    registered (loadEntries W l ctx jp client rclientFactory es s).trace <+:
      es.filterMap (loaderOf W l ctx jp client rclientFactory) ∧
    ((loadEntries W l ctx jp client rclientFactory es s).err = none →
      registered (loadEntries W l ctx jp client rclientFactory es s).trace =
        es.filterMap (loaderOf W l ctx jp client rclientFactory)) := by
  induction es generalizing s with
  | nil => simp [loadEntries, executed, registered]
  | cons e es ih =>
    obtain ⟨hx, hr, _⟩ := newLoader_events W l ctx jp client rclientFactory e
    rcases hn : newLoader W l ctx jp client rclientFactory e with ⟨evs, od, oe⟩
    rw [hn] at hx hr
    simp only at hx hr
    cases oe with
    | some c =>
      simp only [loadEntries, hn, List.filterMap_cons, loaderOf_err hn]
      simp [hx, hr]
    | none =>
      cases od with
      | none =>
        simp only [loadEntries, hn, List.filterMap_cons, loaderOf_skip hn, Outcome.after,
          executed_append, registered_append, hx, hr, List.nil_append]
        exact ih s
      | some d =>
        simp only [loadEntries, hn, hmode, List.filterMap_cons, loaderOf_some hn]
        rcases hd : W.AddDeferredLoader d s with ⟨s1, oe1⟩
        cases oe1 with
        | some c =>
          simp only [Bool.false_eq_true, if_false, if_true, executed_append, registered_append,
            hx, hr, List.nil_append]
          simp [executed, registered]
        | none =>
          obtain ⟨i1, i2, i3⟩ := ih s1
          simp only [if_true, Outcome.after, executed_append,
            registered_append, hx, hr, List.nil_append, i1]
          refine ⟨by simp [executed], ?_, ?_⟩
          · simpa [registered] using i2
          · intro h
            simpa [registered] using i3 h

theorem loadEntries_initialized {σ : Type} (W : World σ) (l : contextLoader σ) (ctx : Context)
    (jp : JMESPath) (client : Option RawClient) (rclientFactory : Option RegistryClientFactory)
    (es : List ContextEntry) (s : σ) :
    initialized (loadEntries W l ctx jp client rclientFactory es s).trace = [] := by
  induction es generalizing s with
  | nil => simp [loadEntries, initialized]
  | cons e es ih =>
    obtain ⟨_, _, hi⟩ := newLoader_events W l ctx jp client rclientFactory e
    rcases hn : newLoader W l ctx jp client rclientFactory e with ⟨evs, od, oe⟩
    rw [hn] at hi
    simp only at hi
    cases oe with
    | some c => simp only [loadEntries, hn, hi]
    | none =>
      cases od with
      | none => simp only [loadEntries, hn, Outcome.after, initialized_append, hi, ih, List.append_nil]
      | some d =>
        simp only [loadEntries, hn]
        split
        · rcases hd : W.AddDeferredLoader d s with ⟨s1, oe1⟩
          cases oe1 with
          | some c => simp only [initialized_append, hi, List.nil_append]; simp [initialized]
          | none =>
            simp only [Outcome.after, initialized_append, hi, ih, List.nil_append,
              List.append_nil]
            simp [initialized]
        · rcases hd : W.LoadData d s with ⟨s1, oe1⟩
          cases oe1 with
          | some c => simp only [initialized_append, hi, List.nil_append]; simp [initialized]
          | none =>
            simp only [Outcome.after, initialized_append, hi, ih, List.nil_append,
              List.append_nil]
            simp [initialized]

theorem map_initializer_projections (xs : List Nat) :
    executed (xs.map Event.initializer) = [] ∧ registered (xs.map Event.initializer) = [] ∧
    withoutLogs (xs.map Event.initializer) = xs.map Event.initializer := by
  induction xs with
  | nil => simp [executed, registered, withoutLogs]
  | cons x xs ih =>
    obtain ⟨h1, h2, h3⟩ := ih
    simp only [executed, registered, withoutLogs] at h1 h2 h3 ⊢
    simp [h1, h2, h3, Event.isLog]

theorem runInitializers_trace {σ : Type} (inits : List (Initializer σ)) (i : Nat) (s : σ) :
    ∃ m, m ≤ inits.length ∧
      (runInitializers inits i s).trace = (List.range' i m).map Event.initializer ∧
      ((runInitializers inits i s).err = none → m = inits.length) := by
  induction inits generalizing i s with
  | nil => exact ⟨0, by simp [runInitializers]⟩
  | cons init rest ih =>
    rcases h : init s with ⟨s1, oe⟩
    cases oe with
    | some c => exact ⟨1, by simp [runInitializers, h]⟩
    | none =>
      obtain ⟨m, hm, ht, he⟩ := ih (i + 1) s1
      refine ⟨m + 1, by simpa using hm, ?_, ?_⟩
      · simp [runInitializers, h, Outcome.after, ht, List.range'_succ]
      · intro hn
        simp only [runInitializers, h, Outcome.after] at hn
        simp [he hn]

theorem runInitializers_append {σ : Type} (pre post : List (Initializer σ)) (i : Nat) (s : σ) :
    runInitializers (pre ++ post) i s =
      match (runInitializers pre i s).err with
      | some _ => runInitializers pre i s
      | none =>
        (runInitializers post (i + pre.length) (runInitializers pre i s).state).after
          (runInitializers pre i s).trace := by
  induction pre generalizing i s with
  | nil => simp [runInitializers, Outcome.after]
  | cons init pre ih =>
    simp only [List.cons_append, runInitializers]
    simp only [List.append_eq]
    rcases h : init s with ⟨s1, oe⟩
    cases oe with
    | some c => rfl
    | none =>
      have harith : i + 1 + pre.length = i + (pre.length + 1) := by omega
      simp only [ih, List.length_cons, harith]
      cases h2 : (runInitializers pre (i + 1) s1).err <;>
        simp [Outcome.after, h2]

theorem Load_ok_init {σ : Type} (W : World σ) (l : contextLoader σ) (ctx : Context)
    (jp : JMESPath) (client : Option RawClient) (rclientFactory : Option RegistryClientFactory)
    (ivCache : Option ImageVerifyCache) (es : List ContextEntry) (s : σ)
    (h : (runInitializers l.initializers 0 s).err = none) :
    Load W l ctx jp client rclientFactory ivCache es s =
      (loadEntries W l ctx jp client rclientFactory es
        (runInitializers l.initializers 0 s).state).after
        (runInitializers l.initializers 0 s).trace := by
  simp [Load, h]

theorem Load_failed_init {σ : Type} (W : World σ) (l : contextLoader σ) (ctx : Context)
    (jp : JMESPath) (client : Option RawClient) (rclientFactory : Option RegistryClientFactory)
    (ivCache : Option ImageVerifyCache) (es : List ContextEntry) (s : σ) (c : GoError)
    (h : (runInitializers l.initializers 0 s).err = some c) :
    Load W l ctx jp client rclientFactory ivCache es s = runInitializers l.initializers 0 s := by
  simp [Load, h]

theorem Load_append {σ : Type} (W : World σ) (l : contextLoader σ) (ctx : Context)
    (jp : JMESPath) (client : Option RawClient) (rclientFactory : Option RegistryClientFactory)
    (ivCache : Option ImageVerifyCache) (pre post : List ContextEntry) (s : σ) :
    Load W l ctx jp client rclientFactory ivCache (pre ++ post) s =
      match (Load W l ctx jp client rclientFactory ivCache pre s).err with
      | some _ => Load W l ctx jp client rclientFactory ivCache pre s
      | none =>
        (loadEntries W l ctx jp client rclientFactory post
          (Load W l ctx jp client rclientFactory ivCache pre s).state).after
          (Load W l ctx jp client rclientFactory ivCache pre s).trace := by
  cases hi : (runInitializers l.initializers 0 s).err with
  | some c =>
    rw [Load_failed_init W l ctx jp client rclientFactory ivCache _ s c hi,
      Load_failed_init W l ctx jp client rclientFactory ivCache _ s c hi]
    simp [hi]
  | none =>
    rw [Load_ok_init W l ctx jp client rclientFactory ivCache _ s hi,
      Load_ok_init W l ctx jp client rclientFactory ivCache _ s hi, loadEntries_append]
    cases h2 : (loadEntries W l ctx jp client rclientFactory pre
        (runInitializers l.initializers 0 s).state).err <;>
      simp [Outcome.after, h2]

theorem Load_ok_of_init {σ : Type} (W : World σ) (l : contextLoader σ) (ctx : Context)
    (jp : JMESPath) (client : Option RawClient) (rclientFactory : Option RegistryClientFactory)
    (ivCache : Option ImageVerifyCache) (es : List ContextEntry) (s : σ)
    (h : (Load W l ctx jp client rclientFactory ivCache es s).err = none) :
    (runInitializers l.initializers 0 s).err = none := by
  cases hi : (runInitializers l.initializers 0 s).err with
  | none => rfl
  | some c =>
    rw [Load_failed_init W l ctx jp client rclientFactory ivCache _ s c hi, hi] at h
    cases h

theorem factory_initializers {σ : Type} (inits : List (Initializer σ)) (cl : contextLoader σ) :
    (inits.map WithInitializer).foldl (fun cl o => o cl) cl =
      { cl with initializers := cl.initializers ++ inits } := by
  induction inits generalizing cl with
  | nil => simp
  | cons init rest ih => simp [ih, WithInitializer]

theorem newLoader_of_loaderOf {σ : Type} (W : World σ) (l : contextLoader σ) (ctx : Context)
    (jp : JMESPath) (client : Option RawClient) (rclientFactory : Option RegistryClientFactory)
    (e : ContextEntry) (d : DeferredLoader)
    (h : loaderOf W l ctx jp client rclientFactory e = some d) :
    ∃ ldr, ldr.entry = e ∧ W.NewDeferredLoader e.Name ldr = (some d, none) ∧
      newLoader W l ctx jp client rclientFactory e = ([Event.construct ldr], some d, none) := by
  have hn := loaderOf_eq_some h
  revert hn
  unfold newLoader
  split
  · split
    · intro hn
      simp only [Prod.mk.injEq, true_and] at hn
      refine ⟨_, ?_, hn, ?_⟩ <;> simp [Loader.entry, hn]
    · intro hn; simp at hn
  · split
    · split
      · intro hn
        simp only [Prod.mk.injEq, true_and] at hn
        refine ⟨_, ?_, hn, ?_⟩ <;> simp [Loader.entry, hn]
      · intro hn; simp at hn
    · split
      · split
        · intro hn
          simp only [Prod.mk.injEq, true_and] at hn
          refine ⟨_, ?_, hn, ?_⟩ <;> simp [Loader.entry, hn]
        · intro hn; simp at hn
      · split
        · intro hn
          simp only [Prod.mk.injEq, true_and] at hn
          refine ⟨_, ?_, hn, ?_⟩ <;> simp [Loader.entry, hn]
        · intro hn; simp at hn

theorem newLoader_skipped {σ : Type} (W : World σ) (l : contextLoader σ) (ctx : Context)
    (jp : JMESPath) (client : Option RawClient) (rclientFactory : Option RegistryClientFactory)
    (e : ContextEntry) (h : skippedEntry l client rclientFactory e) :
    ∃ msg, newLoader W l ctx jp client rclientFactory e =
      ([Event.logInfo msg e.Name], none, none) := by
  rcases h with ⟨h1, h2⟩ | ⟨h1, h2, h3⟩ | ⟨h1, h2, h3, h4⟩
  · exact ⟨"disabled loading of ConfigMap context entry %s", by simp [newLoader, h1, h2]⟩
  · exact ⟨"disabled loading of APICall context entry %s", by simp [newLoader, h1, h2, h3]⟩
  · exact ⟨"disabled loading of ImageRegistry context entry %s",
      by simp [newLoader, h1, h2, h3, h4]⟩

theorem newLoader_missing {σ : Type} (W : World σ) (l : contextLoader σ) (ctx : Context)
    (jp : JMESPath) (client : Option RawClient) (rclientFactory : Option RegistryClientFactory)
    (e : ContextEntry) (h1 : e.ConfigMap = none) (h2 : e.APICall = none)
    (h3 : e.ImageRegistry = none) (h4 : e.Variable = none) :
    newLoader W l ctx jp client rclientFactory e =
      ([], none,
        some (fmtErrorf "missing ConfigMap|APICall|ImageRegistry|Variable in context entry "
          e.Name)) := by
  simp [newLoader, h1, h2, h3, h4]

theorem loadEntries_construction_error {σ : Type} (W : World σ) (l : contextLoader σ)
    (ctx : Context) (jp : JMESPath) (client : Option RawClient)
    (rclientFactory : Option RegistryClientFactory) (e : ContextEntry)
    (post : List ContextEntry) (s : σ) (c : GoError)
    (h : (newLoader W l ctx jp client rclientFactory e).2.2 = some c) :
    loadEntries W l ctx jp client rclientFactory (e :: post) s =
      ⟨s, (newLoader W l ctx jp client rclientFactory e).1,
        some (GoError.leaf ("failed to create deferred loader for context entry " ++ e.Name))⟩ := by
  rcases hn : newLoader W l ctx jp client rclientFactory e with ⟨evs, od, oe⟩
  rw [hn] at h
  simp only at h
  subst h
  simp [loadEntries, hn, fmtErrorf]

theorem initializedState_cons {σ : Type} (init : Initializer σ) (rest : List (Initializer σ))
    (s : σ) : initializedState (init :: rest) s = initializedState rest (init s).1 := by
  simp [initializedState]

theorem initializersSucceed_cons {σ : Type} (init : Initializer σ)
    (rest : List (Initializer σ)) (s : σ) :
    initializersSucceed (init :: rest) s ↔
      (init s).2 = none ∧ initializersSucceed rest (init s).1 := by
  constructor
  · intro h
    refine ⟨h [] init rest rfl, ?_⟩
    intro pre x post hsplit
    have := h (init :: pre) x post (by rw [hsplit]; rfl)
    rwa [initializedState_cons] at this
  · rintro ⟨h0, hrest⟩ pre x post hsplit
    cases pre with
    | nil =>
      simp only [List.nil_append, List.cons.injEq] at hsplit
      obtain ⟨rfl, _⟩ := hsplit
      exact h0
    | cons a pre =>
      simp only [List.cons_append, List.cons.injEq] at hsplit
      obtain ⟨rfl, hr⟩ := hsplit
      rw [initializedState_cons]
      exact hrest pre x post hr

theorem runInitializers_of_succeed {σ : Type} (inits : List (Initializer σ)) (i : Nat) (s : σ)
    (h : initializersSucceed inits s) :
    runInitializers inits i s =
      ⟨initializedState inits s, (List.range' i inits.length).map Event.initializer, none⟩ := by
  induction inits generalizing i s with
  | nil => simp [runInitializers, initializedState]
  | cons init rest ih =>
    obtain ⟨h0, hrest⟩ := (initializersSucceed_cons init rest s).1 h
    rcases hi : init s with ⟨s1, oe⟩
    rw [hi] at h0 hrest
    simp only at h0 hrest
    subst h0
    simp [runInitializers, hi, ih (i + 1) s1 hrest, Outcome.after, initializedState_cons,
      List.range'_succ]

theorem initializersSucceed_of_run {σ : Type} (inits : List (Initializer σ)) (i : Nat) (s : σ)
    (h : (runInitializers inits i s).err = none) : initializersSucceed inits s := by
  induction inits generalizing i s with
  | nil =>
    intro pre x post hsplit
    simp at hsplit
  | cons init rest ih =>
    rcases hi : init s with ⟨s1, oe⟩
    cases oe with
    | some c => simp [runInitializers, hi] at h
    | none =>
      simp only [runInitializers, hi, Outcome.after] at h
      rw [initializersSucceed_cons, hi]
      exact ⟨rfl, ih (i + 1) s1 h⟩

/-! ## The claims on `Load` -/

/-- C1. In eager mode (`EnableDeferredLoading` false) `Load` registers nothing and calls
`LoadData` on the loaders of the entries in declaration order: the executed loaders are a
prefix of the loaders of the non-skipped entries, and all of them, once each, when `Load`
returns nil. If the entries before `e` were processed without error and `LoadData` of the
loader of `e` fails with `err`, `Load` returns exactly `err`, and its trace ends with the
construction and the execution of that loader: nothing is constructed or executed for the
entries after `e`. -/
theorem Load_eager_in_order {σ : Type} (W : World σ) (l : contextLoader σ) (ctx : Context)
    (jp : JMESPath) (client : Option RawClient) (rclientFactory : Option RegistryClientFactory)
    (ivCache : Option ImageVerifyCache) (entries : List ContextEntry) (s : σ)
    (hmode : ∀ s, W.EnableDeferredLoading ctx s = false) :
    registered (Load W l ctx jp client rclientFactory ivCache entries s).trace = [] ∧
    executed (Load W l ctx jp client rclientFactory ivCache entries s).trace <+:
      entries.filterMap (loaderOf W l ctx jp client rclientFactory) ∧
    ((Load W l ctx jp client rclientFactory ivCache entries s).err = none →
      executed (Load W l ctx jp client rclientFactory ivCache entries s).trace =
        entries.filterMap (loaderOf W l ctx jp client rclientFactory)) ∧
    (∀ pre e post d s2 err, entries = pre ++ e :: post →
      (Load W l ctx jp client rclientFactory ivCache pre s).err = none →
      loaderOf W l ctx jp client rclientFactory e = some d →
      W.LoadData d (Load W l ctx jp client rclientFactory ivCache pre s).state = (s2, some err) →
      ∃ ldr, ldr.entry = e ∧ W.NewDeferredLoader e.Name ldr = (some d, none) ∧
        Load W l ctx jp client rclientFactory ivCache entries s =
          ⟨s2, (Load W l ctx jp client rclientFactory ivCache pre s).trace ++
            [Event.construct ldr, Event.execute d], some err⟩) := by
  refine ⟨?_, ?_, ?_, ?_⟩
  · cases hi : (runInitializers l.initializers 0 s).err with
    | some c =>
      rw [Load_failed_init W l ctx jp client rclientFactory ivCache _ s c hi]
      obtain ⟨m, _, ht, _⟩ := runInitializers_trace l.initializers 0 s
      rw [ht]
      exact (map_initializer_projections _).2.1
    | none =>
      rw [Load_ok_init W l ctx jp client rclientFactory ivCache _ s hi]
      obtain ⟨m, _, ht, _⟩ := runInitializers_trace l.initializers 0 s
      simp only [Outcome.after, registered_append, ht, (map_initializer_projections _).2.1,
        List.nil_append]
      exact (loadEntries_eager W l ctx jp client rclientFactory hmode entries _).1
  · cases hi : (runInitializers l.initializers 0 s).err with
    | some c =>
      rw [Load_failed_init W l ctx jp client rclientFactory ivCache _ s c hi]
      obtain ⟨m, _, ht, _⟩ := runInitializers_trace l.initializers 0 s
      rw [ht, (map_initializer_projections _).1]
      exact List.nil_prefix
    | none =>
      rw [Load_ok_init W l ctx jp client rclientFactory ivCache _ s hi]
      obtain ⟨m, _, ht, _⟩ := runInitializers_trace l.initializers 0 s
      simp only [Outcome.after, executed_append, ht, (map_initializer_projections _).1,
        List.nil_append]
      exact (loadEntries_eager W l ctx jp client rclientFactory hmode entries _).2.1
  · intro hok
    have hi := Load_ok_of_init W l ctx jp client rclientFactory ivCache entries s hok
    rw [Load_ok_init W l ctx jp client rclientFactory ivCache _ s hi] at hok ⊢
    obtain ⟨m, _, ht, _⟩ := runInitializers_trace l.initializers 0 s
    simp only [Outcome.after, executed_append, ht, (map_initializer_projections _).1,
      List.nil_append]
    exact (loadEntries_eager W l ctx jp client rclientFactory hmode entries _).2.2 hok
  · intro pre e post d s2 err hsplit hpre hd hfail
    obtain ⟨ldr, he, hnew, hn⟩ :=
      newLoader_of_loaderOf W l ctx jp client rclientFactory e d hd
    refine ⟨ldr, he, hnew, ?_⟩
    rw [hsplit, Load_append, hpre]
    simp [loadEntries, hn, hmode, hfail, Outcome.after]

/-- C1, at a concrete input: three entries in eager mode, the second of which fails to load. -/
theorem Load_eager_in_order_witness :
    (∀ s, (exWorld false).EnableDeferredLoading ⟨0⟩ s = false) ∧
    executed (Load (exWorld false) exLoader ⟨0⟩ ⟨0⟩ none none none
        [exVar "a", exConfigMap "b"] []).trace =
      [⟨"a", Loader.variable (exVar "a") ⟨0⟩⟩,
       ⟨"b", Loader.configMap ⟨0⟩ (exConfigMap "b") ⟨1⟩⟩] ∧
    (∃ ldr, ldr.entry = exConfigMap "bad" ∧
      (exWorld false).NewDeferredLoader (exConfigMap "bad").Name ldr =
        (some ⟨"bad", Loader.configMap ⟨0⟩ (exConfigMap "bad") ⟨1⟩⟩, none) ∧
      Load (exWorld false) exLoader ⟨0⟩ ⟨0⟩ none none none
          [exVar "a", exConfigMap "bad", exVar "c"] [] =
        ⟨["request", "a"],
          (Load (exWorld false) exLoader ⟨0⟩ ⟨0⟩ none none none [exVar "a"] []).trace ++
            [Event.construct ldr,
             Event.execute ⟨"bad", Loader.configMap ⟨0⟩ (exConfigMap "bad") ⟨1⟩⟩],
          some (GoError.leaf "load failed")⟩) :=
  ⟨fun _ => rfl,
   ((Load_eager_in_order (exWorld false) exLoader ⟨0⟩ ⟨0⟩ none none none
      [exVar "a", exConfigMap "b"] [] (fun _ => rfl)).2.2.1 (by decide)).trans (by decide),
   (Load_eager_in_order (exWorld false) exLoader ⟨0⟩ ⟨0⟩ none none none
      [exVar "a", exConfigMap "bad", exVar "c"] [] (fun _ => rfl)).2.2.2
      [exVar "a"] (exConfigMap "bad") [exVar "c"]
      ⟨"bad", Loader.configMap ⟨0⟩ (exConfigMap "bad") ⟨1⟩⟩ ["request", "a"]
      (GoError.leaf "load failed") rfl (by decide) (by decide) (by decide)⟩

/-- C2. In deferred mode (`EnableDeferredLoading` true) `Load` never calls `LoadData`: the
loaders it obtains are passed to `AddDeferredLoader` in declaration order (a prefix of the
loaders of the non-skipped entries, and all of them when `Load` returns nil). -/
theorem Load_deferred_only_registers {σ : Type} (W : World σ) (l : contextLoader σ)
    (ctx : Context) (jp : JMESPath) (client : Option RawClient)
    (rclientFactory : Option RegistryClientFactory) (ivCache : Option ImageVerifyCache)
    (entries : List ContextEntry) (s : σ)
    (hmode : ∀ s, W.EnableDeferredLoading ctx s = true) :
    executed (Load W l ctx jp client rclientFactory ivCache entries s).trace = [] ∧
    registered (Load W l ctx jp client rclientFactory ivCache entries s).trace <+:
      entries.filterMap (loaderOf W l ctx jp client rclientFactory) ∧
    ((Load W l ctx jp client rclientFactory ivCache entries s).err = none →
      registered (Load W l ctx jp client rclientFactory ivCache entries s).trace =
        entries.filterMap (loaderOf W l ctx jp client rclientFactory)) := by
  refine ⟨?_, ?_, ?_⟩
  · cases hi : (runInitializers l.initializers 0 s).err with
    | some c =>
      rw [Load_failed_init W l ctx jp client rclientFactory ivCache _ s c hi]
      obtain ⟨m, _, ht, _⟩ := runInitializers_trace l.initializers 0 s
      rw [ht]
      exact (map_initializer_projections _).1
    | none =>
      rw [Load_ok_init W l ctx jp client rclientFactory ivCache _ s hi]
      obtain ⟨m, _, ht, _⟩ := runInitializers_trace l.initializers 0 s
      simp only [Outcome.after, executed_append, ht, (map_initializer_projections _).1,
        List.nil_append]
      exact (loadEntries_deferred W l ctx jp client rclientFactory hmode entries _).1
  · cases hi : (runInitializers l.initializers 0 s).err with
    | some c =>
      rw [Load_failed_init W l ctx jp client rclientFactory ivCache _ s c hi]
      obtain ⟨m, _, ht, _⟩ := runInitializers_trace l.initializers 0 s
      rw [ht, (map_initializer_projections _).2.1]
      exact List.nil_prefix
    | none =>
      rw [Load_ok_init W l ctx jp client rclientFactory ivCache _ s hi]
      obtain ⟨m, _, ht, _⟩ := runInitializers_trace l.initializers 0 s
      simp only [Outcome.after, registered_append, ht, (map_initializer_projections _).2.1,
        List.nil_append]
      exact (loadEntries_deferred W l ctx jp client rclientFactory hmode entries _).2.1
  · intro hok
    have hi := Load_ok_of_init W l ctx jp client rclientFactory ivCache entries s hok
    rw [Load_ok_init W l ctx jp client rclientFactory ivCache _ s hi] at hok ⊢
    obtain ⟨m, _, ht, _⟩ := runInitializers_trace l.initializers 0 s
    simp only [Outcome.after, registered_append, ht, (map_initializer_projections _).2.1,
      List.nil_append]
    exact (loadEntries_deferred W l ctx jp client rclientFactory hmode entries _).2.2 hok

/-- C2, at a concrete input: two entries in deferred mode, even one whose `LoadData` would
fail, are registered and not executed. -/
theorem Load_deferred_only_registers_witness :
    (∀ s, (exWorld true).EnableDeferredLoading ⟨0⟩ s = true) ∧
    executed (Load (exWorld true) exLoader ⟨0⟩ ⟨0⟩ none none none
        [exVar "a", exConfigMap "bad"] []).trace = [] ∧
    registered (Load (exWorld true) exLoader ⟨0⟩ ⟨0⟩ none none none
        [exVar "a", exConfigMap "bad"] []).trace =
      [⟨"a", Loader.variable (exVar "a") ⟨0⟩⟩,
       ⟨"bad", Loader.configMap ⟨0⟩ (exConfigMap "bad") ⟨1⟩⟩] :=
  ⟨fun _ => rfl,
   (Load_deferred_only_registers (exWorld true) exLoader ⟨0⟩ ⟨0⟩ none none none
      [exVar "a", exConfigMap "bad"] [] (fun _ => rfl)).1,
   ((Load_deferred_only_registers (exWorld true) exLoader ⟨0⟩ ⟨0⟩ none none none
      [exVar "a", exConfigMap "bad"] [] (fun _ => rfl)).2.2 (by decide)).trans (by decide)⟩

/-- C3. `WithInitializer` keeps registration order. `Load` calls the initializers in that
order before anything else: its trace is the calls of the initializers at positions
`0, ..., m - 1` followed by a rest without initializer calls; the rest is nonempty only when
all initializers have run without error, and `m` is the number of initializers whenever none
of them fails. When none fails, `Load` is the calls of all initializers in registration
order followed by the entry loop started in the state the initializers leave. If the
initializers before `init` succeed and `init` fails with `err`, `Load` returns exactly `err`,
having called only the initializers up to `init` and nothing else. -/
theorem Load_initializers_first {σ : Type} (W : World σ) (l : contextLoader σ) (ctx : Context)
    (jp : JMESPath) (client : Option RawClient) (rclientFactory : Option RegistryClientFactory)
    (ivCache : Option ImageVerifyCache) (entries : List ContextEntry) (s : σ)
    (cmResolver : Option ConfigmapResolver) (inits : List (Initializer σ)) :
    (DefaultContextLoaderFactory cmResolver (inits.map WithInitializer)).initializers = inits ∧
    (∃ m rest, m ≤ l.initializers.length ∧
      (Load W l ctx jp client rclientFactory ivCache entries s).trace =
        (List.range m).map Event.initializer ++ rest ∧
      initialized rest = [] ∧
      (rest ≠ [] → m = l.initializers.length ∧
        (runInitializers l.initializers 0 s).err = none) ∧
      (initializersSucceed l.initializers s → m = l.initializers.length)) ∧
    (∀ pre init post s2 err, l.initializers = pre ++ init :: post →
      (runInitializers pre 0 s).err = none →
      init (runInitializers pre 0 s).state = (s2, some err) →
      Load W l ctx jp client rclientFactory ivCache entries s =
        ⟨s2, (List.range (pre.length + 1)).map Event.initializer, some err⟩) ∧
    (initializersSucceed l.initializers s →
      Load W l ctx jp client rclientFactory ivCache entries s =
        (loadEntries W l ctx jp client rclientFactory entries
          (initializedState l.initializers s)).after
          ((List.range l.initializers.length).map Event.initializer)) ∧
    (∀ pre init post s2 err, l.initializers = pre ++ init :: post →
      initializersSucceed pre s →
      init (initializedState pre s) = (s2, some err) →
      Load W l ctx jp client rclientFactory ivCache entries s =
        ⟨s2, (List.range (pre.length + 1)).map Event.initializer, some err⟩) := by
  have hfail : ∀ pre init post s2 err, l.initializers = pre ++ init :: post →
      (runInitializers pre 0 s).err = none →
      init (runInitializers pre 0 s).state = (s2, some err) →
      Load W l ctx jp client rclientFactory ivCache entries s =
        ⟨s2, (List.range (pre.length + 1)).map Event.initializer, some err⟩ := by
    intro pre init post s2 err hsplit hpre hfail
    obtain ⟨m, _, ht, he⟩ := runInitializers_trace pre 0 s
    have hm := he hpre
    subst hm
    have hrun : runInitializers l.initializers 0 s =
        ⟨s2, (List.range (pre.length + 1)).map Event.initializer, some err⟩ := by
      rw [hsplit, runInitializers_append, hpre]
      simp [runInitializers, hfail, Outcome.after, ht, List.range_succ, List.range_eq_range']
    rw [Load_failed_init W l ctx jp client rclientFactory ivCache _ s err (by rw [hrun]), hrun]
  refine ⟨?_, ?_, hfail, ?_, ?_⟩
  · simp [DefaultContextLoaderFactory, factory_initializers]
  · obtain ⟨m, hm, ht, he⟩ := runInitializers_trace l.initializers 0 s
    cases hi : (runInitializers l.initializers 0 s).err with
    | some c =>
      refine ⟨m, [], hm, ?_, rfl, fun h => absurd rfl h, ?_⟩
      · rw [Load_failed_init W l ctx jp client rclientFactory ivCache _ s c hi, ht,
          List.range_eq_range']
        simp
      · intro hs
        rw [runInitializers_of_succeed l.initializers 0 s hs] at hi
        cases hi
    | none =>
      refine ⟨m, (loadEntries W l ctx jp client rclientFactory entries
        (runInitializers l.initializers 0 s).state).trace, hm, ?_,
        loadEntries_initialized W l ctx jp client rclientFactory entries _,
        fun _ => ⟨he hi, rfl⟩, fun _ => he hi⟩
      rw [Load_ok_init W l ctx jp client rclientFactory ivCache _ s hi, List.range_eq_range']
      simp [Outcome.after, ht]
  · intro hs
    have hrun := runInitializers_of_succeed l.initializers 0 s hs
    rw [Load_ok_init W l ctx jp client rclientFactory ivCache _ s (by rw [hrun]), hrun,
      List.range_eq_range']
  · intro pre init post s2 err hsplit hpre hf
    have hrun := runInitializers_of_succeed pre 0 s hpre
    exact hfail pre init post s2 err hsplit (by rw [hrun]) (by rw [hrun]; exact hf)

/-- C3, at a concrete input: two initializers that succeed are both run, in order, before the
entry is loaded in the state they leave; and of three initializers of which the second fails,
the third and the entries are not touched. -/
theorem Load_initializers_first_witness :
    initializersSucceed exLoaderTwo.initializers [] ∧
    Load (exWorld false) exLoaderTwo ⟨0⟩ ⟨0⟩ none none none [exVar "a"] [] =
      ⟨["request", "user", "a"],
        [Event.initializer 0, Event.initializer 1,
          Event.construct (Loader.variable (exVar "a") ⟨0⟩),
          Event.execute ⟨"a", Loader.variable (exVar "a") ⟨0⟩⟩],
        none⟩ ∧
    Load (exWorld false) exLoaderTwo ⟨0⟩ ⟨0⟩ none none none [] [] =
      ⟨["request", "user"], [Event.initializer 0, Event.initializer 1], none⟩ ∧
    Load (exWorld false) exLoaderFailing ⟨0⟩ ⟨0⟩ none none none [exVar "a"] [] =
      ⟨["request"], [Event.initializer 0, Event.initializer 1],
        some (GoError.leaf "init failed")⟩ :=
  ⟨initializersSucceed_of_run exLoaderTwo.initializers 0 [] (by decide),
   ((Load_initializers_first (exWorld false) exLoaderTwo ⟨0⟩ ⟨0⟩ none none none
      [exVar "a"] [] none []).2.2.2.1
      (initializersSucceed_of_run exLoaderTwo.initializers 0 [] (by decide))).trans (by decide),
   ((Load_initializers_first (exWorld false) exLoaderTwo ⟨0⟩ ⟨0⟩ none none none
      [] [] none []).2.2.2.1
      (initializersSucceed_of_run exLoaderTwo.initializers 0 [] (by decide))).trans (by decide),
   (Load_initializers_first (exWorld false) exLoaderFailing ⟨0⟩ ⟨0⟩ none none none
      [exVar "a"] [] none []).2.2.1 [exInitOk] exInitFail [exInitOk] ["request"]
      (GoError.leaf "init failed") rfl (by decide) (by decide)⟩

/-- C4. If the initializers and the entries before `e` are processed without error and `e`
has none of `ConfigMap`, `APICall`, `ImageRegistry`, `Variable` set, then `Load` (whatever
the mode) fails with the error whose message is
`failed to create deferred loader for context entry ` followed by the name of `e`, and its
state and trace are those reached before `e`: nothing is constructed, registered or executed
for `e` or for an entry after it. -/
theorem Load_missing_variant_aborts {σ : Type} (W : World σ) (l : contextLoader σ)
    (ctx : Context) (jp : JMESPath) (client : Option RawClient)
    (rclientFactory : Option RegistryClientFactory) (ivCache : Option ImageVerifyCache)
    (pre : List ContextEntry) (e : ContextEntry) (post : List ContextEntry) (s : σ)
    (h1 : e.ConfigMap = none) (h2 : e.APICall = none) (h3 : e.ImageRegistry = none)
    (h4 : e.Variable = none)
    (hpre : (Load W l ctx jp client rclientFactory ivCache pre s).err = none) :
    Load W l ctx jp client rclientFactory ivCache (pre ++ e :: post) s =
      ⟨(Load W l ctx jp client rclientFactory ivCache pre s).state,
        (Load W l ctx jp client rclientFactory ivCache pre s).trace,
        some (GoError.leaf
          ("failed to create deferred loader for context entry " ++ e.Name))⟩ := by
  have hn := newLoader_missing W l ctx jp client rclientFactory e h1 h2 h3 h4
  rw [Load_append, hpre]
  simp only
  rw [loadEntries_construction_error W l ctx jp client rclientFactory e post _ _
    (by rw [hn])]
  simp [Outcome.after, hn]

/-- C4, at a concrete input: a malformed entry between two well-formed ones, in deferred
mode. -/
theorem Load_missing_variant_aborts_witness :
    (Load (exWorld true) exLoader ⟨0⟩ ⟨0⟩ none none none [exVar "a"] []).err = none ∧
    Load (exWorld true) exLoader ⟨0⟩ ⟨0⟩ none none none
        ([exVar "a"] ++ exMalformed :: [exVar "c"]) [] =
      ⟨["request", "deferred:a"],
        [Event.initializer 0, Event.construct (Loader.variable (exVar "a") ⟨0⟩),
          Event.register ⟨"a", Loader.variable (exVar "a") ⟨0⟩⟩],
        some (GoError.leaf "failed to create deferred loader for context entry broken")⟩ :=
  ⟨by decide,
   (Load_missing_variant_aborts (exWorld true) exLoader ⟨0⟩ ⟨0⟩ none none none
      [exVar "a"] exMalformed [exVar "c"] [] rfl rfl rfl rfl (by decide)).trans (by decide)⟩

/-- C5 fails as stated: an entry with both `ConfigMap` and `Variable` set is not rejected;
`Load` returns nil, having built and executed the ConfigMap loader for it. -/
theorem Load_multiple_variants_accepted :
    1 < (variantsSet exBoth).length ∧
    Load (exWorld false) exLoader ⟨0⟩ ⟨0⟩ none none none [exBoth] [] =
      ⟨["request", "both"],
        [Event.initializer 0, Event.construct (Loader.configMap ⟨0⟩ exBoth ⟨1⟩),
          Event.execute ⟨"both", Loader.configMap ⟨0⟩ exBoth ⟨1⟩⟩],
        none⟩ := by
  decide

/-- C5, amended. For an entry with more than one variant set `newLoader` does not take the
missing-variant branch. It dispatches on the first set variant `k` in the order `ConfigMap`,
`APICall`, `ImageRegistry`, `Variable`: when the collaborator of `k` is configured it builds
the loader of kind `k` for the entry and returns what `NewDeferredLoader` returns for it;
when that collaborator is nil it logs and returns no loader and no error. -/
theorem newLoader_multiple_variants {σ : Type} (W : World σ) (l : contextLoader σ)
    (ctx : Context) (jp : JMESPath) (client : Option RawClient)
    (rclientFactory : Option RegistryClientFactory) (e : ContextEntry)
    (h : 1 < (variantsSet e).length) :
    newLoader W l ctx jp client rclientFactory e ≠
      ([], none,
        some (fmtErrorf "missing ConfigMap|APICall|ImageRegistry|Variable in context entry "
          e.Name)) ∧
    ∃ k, (variantsSet e).head? = some k ∧
      ((collaboratorConfigured l client rclientFactory k = true ∧
          ∃ ldr, ldr.kind = k ∧ ldr.entry = e ∧
            newLoader W l ctx jp client rclientFactory e =
              ([Event.construct ldr], W.NewDeferredLoader e.Name ldr)) ∨
        (collaboratorConfigured l client rclientFactory k = false ∧
          ∃ msg, newLoader W l ctx jp client rclientFactory e =
            ([Event.logInfo msg e.Name], none, none))) := by
  by_cases h1 : e.ConfigMap.isSome = true
  · cases hc : l.cmResolver with
    | none =>
      refine ⟨by simp [newLoader, h1, hc], VariantKind.ConfigMap, by simp [variantsSet, h1],
        Or.inr ⟨by simp [collaboratorConfigured, hc], _, by simp [newLoader, h1, hc]; rfl⟩⟩
    | some cm =>
      refine ⟨by simp [newLoader, h1, hc], VariantKind.ConfigMap, by simp [variantsSet, h1],
        Or.inl ⟨by simp [collaboratorConfigured, hc], Loader.configMap ctx e cm, rfl, rfl,
          by simp [newLoader, h1, hc]⟩⟩
  · by_cases h2 : e.APICall.isSome = true
    · cases hc : client with
      | none =>
        refine ⟨by simp [newLoader, h1, h2], VariantKind.APICall,
          by simp [variantsSet, h1, h2],
          Or.inr ⟨by simp [collaboratorConfigured], _, by simp [newLoader, h1, h2]; rfl⟩⟩
      | some c =>
        refine ⟨by simp [newLoader, h1, h2], VariantKind.APICall,
          by simp [variantsSet, h1, h2],
          Or.inl ⟨by simp [collaboratorConfigured], Loader.api ctx e jp c, rfl, rfl,
            by simp [newLoader, h1, h2]⟩⟩
    · by_cases h3 : e.ImageRegistry.isSome = true
      · cases hc : rclientFactory with
        | none =>
          refine ⟨by simp [newLoader, h1, h2, h3], VariantKind.ImageRegistry,
            by simp [variantsSet, h1, h2, h3],
            Or.inr ⟨by simp [collaboratorConfigured], _,
              by simp [newLoader, h1, h2, h3]; rfl⟩⟩
        | some c =>
          refine ⟨by simp [newLoader, h1, h2, h3], VariantKind.ImageRegistry,
            by simp [variantsSet, h1, h2, h3],
            Or.inl ⟨by simp [collaboratorConfigured], Loader.imageData ctx e jp c, rfl, rfl,
              by simp [newLoader, h1, h2, h3]⟩⟩
      · exfalso
        simp only [variantsSet, h1, h2, h3] at h
        by_cases h4 : e.Variable.isSome = true <;> simp [h4] at h

/-- C5 amended, at a concrete input: `ConfigMap` and `Variable` set, resolver configured. -/
theorem newLoader_multiple_variants_witness :
    1 < (variantsSet exBoth).length ∧
    ∃ k, (variantsSet exBoth).head? = some k ∧
      ((collaboratorConfigured exLoader none none k = true ∧
          ∃ ldr, ldr.kind = k ∧ ldr.entry = exBoth ∧
            newLoader (exWorld false) exLoader ⟨0⟩ ⟨0⟩ none none exBoth =
              ([Event.construct ldr], (exWorld false).NewDeferredLoader exBoth.Name ldr)) ∨
        (collaboratorConfigured exLoader none none k = false ∧
          ∃ msg, newLoader (exWorld false) exLoader ⟨0⟩ ⟨0⟩ none none exBoth =
            ([Event.logInfo msg exBoth.Name], none, none))) :=
  ⟨by decide,
   (newLoader_multiple_variants (exWorld false) exLoader ⟨0⟩ ⟨0⟩ none none exBoth
      (by decide)).2⟩

/-- C6. An entry `e` whose first set variant is `ConfigMap`, `APICall` or `ImageRegistry`
while the collaborator of that variant is nil is skipped: `newLoader` only logs and returns
neither a loader nor an error, and `Load` on a list containing `e` ends in the same state,
with the same error and, log lines apart, the same calls as `Load` on the list without
`e`. -/
theorem Load_skips_unconfigured {σ : Type} (W : World σ) (l : contextLoader σ) (ctx : Context)
    (jp : JMESPath) (client : Option RawClient) (rclientFactory : Option RegistryClientFactory)
    (ivCache : Option ImageVerifyCache) (pre : List ContextEntry) (e : ContextEntry)
    (post : List ContextEntry) (s : σ) (hskip : skippedEntry l client rclientFactory e) :
    (∃ msg, newLoader W l ctx jp client rclientFactory e =
      ([Event.logInfo msg e.Name], none, none)) ∧
    (Load W l ctx jp client rclientFactory ivCache (pre ++ e :: post) s).state =
      (Load W l ctx jp client rclientFactory ivCache (pre ++ post) s).state ∧
    (Load W l ctx jp client rclientFactory ivCache (pre ++ e :: post) s).err =
      (Load W l ctx jp client rclientFactory ivCache (pre ++ post) s).err ∧
    withoutLogs (Load W l ctx jp client rclientFactory ivCache (pre ++ e :: post) s).trace =
      withoutLogs (Load W l ctx jp client rclientFactory ivCache (pre ++ post) s).trace := by
  obtain ⟨msg, hn⟩ := newLoader_skipped W l ctx jp client rclientFactory e hskip
  refine ⟨⟨msg, hn⟩, ?_⟩
  rw [Load_append W l ctx jp client rclientFactory ivCache pre (e :: post),
    Load_append W l ctx jp client rclientFactory ivCache pre post]
  cases hpre : (Load W l ctx jp client rclientFactory ivCache pre s).err with
  | some c => exact ⟨rfl, rfl, rfl⟩
  | none =>
    simp only [loadEntries, hn, Outcome.after, withoutLogs_append]
    refine ⟨trivial, trivial, ?_⟩
    simp [withoutLogs, Event.isLog]

/-- C6, at a concrete input: a ConfigMap entry while no resolver is configured, between two
variable entries, in eager mode. -/
theorem Load_skips_unconfigured_witness :
    skippedEntry exLoaderBare none none (exConfigMap "cm") ∧
    (Load (exWorld false) exLoaderBare ⟨0⟩ ⟨0⟩ none none none
        ([exVar "a"] ++ exConfigMap "cm" :: [exVar "c"]) []).state = ["a", "c"] ∧
    (Load (exWorld false) exLoaderBare ⟨0⟩ ⟨0⟩ none none none
        ([exVar "a"] ++ exConfigMap "cm" :: [exVar "c"]) []).err = none :=
  ⟨Or.inl ⟨rfl, rfl⟩,
   (Load_skips_unconfigured (exWorld false) exLoaderBare ⟨0⟩ ⟨0⟩ none none none
      [exVar "a"] (exConfigMap "cm") [exVar "c"] [] (Or.inl ⟨rfl, rfl⟩)).2.1.trans (by decide),
   (Load_skips_unconfigured (exWorld false) exLoaderBare ⟨0⟩ ⟨0⟩ none none none
      [exVar "a"] (exConfigMap "cm") [exVar "c"] [] (Or.inl ⟨rfl, rfl⟩)).2.2.1.trans
      (by decide)⟩

/-- C7 fails as stated: for the entry `broken` without variant, `newLoader` fails with the
missing-variant error, but the error `Load` returns has no wrapped cause and the cause is not
in its chain; a different cause (a failing `NewDeferredLoader`) for an entry of the same name
yields the very same error. -/
theorem Load_construction_error_drops_cause :
    (newLoader (exWorld false) exLoader ⟨0⟩ ⟨0⟩ none none exMalformed).2.2 =
      some (GoError.leaf
        "missing ConfigMap|APICall|ImageRegistry|Variable in context entry broken") ∧
    (Load (exWorld false) exLoader ⟨0⟩ ⟨0⟩ none none none [exMalformed] []).err =
      some (GoError.leaf "failed to create deferred loader for context entry broken") ∧
    (GoError.leaf "failed to create deferred loader for context entry broken").Unwrap = none ∧
    errorsIs (GoError.leaf "failed to create deferred loader for context entry broken")
      (GoError.leaf
        "missing ConfigMap|APICall|ImageRegistry|Variable in context entry broken") = false ∧
    (newLoader exWorldNoLoader exLoader ⟨0⟩ ⟨0⟩ none none (exVar "broken")).2.2 =
      some (GoError.leaf "bad name") ∧
    (Load exWorldNoLoader exLoader ⟨0⟩ ⟨0⟩ none none none [exVar "broken"] []).err =
      some (GoError.leaf "failed to create deferred loader for context entry broken") := by
  decide

/-- C7, amended. Whenever the initializers and the entries before `e` succeed and
constructing the loader for `e` fails with any cause `c`, the error `Load` returns has the
message `failed to create deferred loader for context entry ` followed by the name of `e`,
and it wraps nothing: the cause is dropped. -/
theorem Load_construction_error_names_entry {σ : Type} (W : World σ) (l : contextLoader σ)
    (ctx : Context) (jp : JMESPath) (client : Option RawClient)
    (rclientFactory : Option RegistryClientFactory) (ivCache : Option ImageVerifyCache)
    (pre : List ContextEntry) (e : ContextEntry) (post : List ContextEntry) (s : σ)
    (c : GoError)
    (hpre : (Load W l ctx jp client rclientFactory ivCache pre s).err = none)
    (hc : (newLoader W l ctx jp client rclientFactory e).2.2 = some c) :
    ∃ err, (Load W l ctx jp client rclientFactory ivCache (pre ++ e :: post) s).err = some err ∧
      err.Error = "failed to create deferred loader for context entry " ++ e.Name ∧
      err.Unwrap = none := by
  refine ⟨GoError.leaf ("failed to create deferred loader for context entry " ++ e.Name),
    ?_, rfl, rfl⟩
  rw [Load_append, hpre]
  simp only
  rw [loadEntries_construction_error W l ctx jp client rclientFactory e post _ c hc]
  rfl

/-- C7 amended, at a concrete input: `NewDeferredLoader` fails for the entry `v`. -/
theorem Load_construction_error_names_entry_witness :
    (Load exWorldNoLoader exLoader ⟨0⟩ ⟨0⟩ none none none [] []).err = none ∧
    (newLoader exWorldNoLoader exLoader ⟨0⟩ ⟨0⟩ none none (exVar "v")).2.2 =
      some (GoError.leaf "bad name") ∧
    ∃ err, (Load exWorldNoLoader exLoader ⟨0⟩ ⟨0⟩ none none none
        ([] ++ exVar "v" :: [exVar "w"]) []).err = some err ∧
      err.Error = "failed to create deferred loader for context entry " ++ (exVar "v").Name ∧
      err.Unwrap = none :=
  ⟨by decide, by decide,
   Load_construction_error_names_entry exWorldNoLoader exLoader ⟨0⟩ ⟨0⟩ none none none
     [] (exVar "v") [exVar "w"] [] (GoError.leaf "bad name") (by decide) (by decide)⟩

/-! ## Lemmas on `Resolve` -/

theorem isGHCRRegistry_of_default (E : Env) (r : Resource)
    (h : isDefaultRegistry E r = true) : isGHCRRegistry E r = false := by
  unfold isDefaultRegistry at h
  unfold isGHCRRegistry
  cases hp : E.urlParse ("https://" ++ r.String) with
  | error err => rfl
  | ok u =>
    rw [hp] at h
    simp only [beq_iff_eq] at h
    simp [h, defaultHostname, ghcrHostname]

theorem resolveFromConfig_eq (cf : ConfigFile) (r : Resource) :
    resolveFromConfig cf r =
      match cf.GetAuthConfig (authKey r.String) with
      | .error err => .error err
      | .ok a =>
        if a.cleared = TypesAuthConfig.empty then
          match cf.GetAuthConfig (authKey r.RegistryStr) with
          | .error err => .error err
          | .ok b =>
            if b.cleared = TypesAuthConfig.empty then .ok Authenticator.Anonymous
            else .ok (Authenticator.FromConfig b.toAuthn)
        else .ok (Authenticator.FromConfig a.toAuthn) := by
  unfold resolveFromConfig
  simp only [lookupKeys, authKey, TypesAuthConfig.cleared, TypesAuthConfig.toAuthn]
  cases cf.GetAuthConfig (if r.String = name_DefaultRegistry then DefaultAuthKey
      else r.String) with
  | error err => simp
  | ok a =>
    by_cases ha : ({ a with ServerAddress := "" } : TypesAuthConfig) = TypesAuthConfig.empty
    · simp only [ha, ne_eq, not_true_eq_false, if_false, if_true]
      cases cf.GetAuthConfig (if r.RegistryStr = name_DefaultRegistry then DefaultAuthKey
          else r.RegistryStr) with
      | error err => simp
      | ok b =>
        by_cases hb : ({ b with ServerAddress := "" } : TypesAuthConfig) =
            TypesAuthConfig.empty
        · simp [hb]
        · simp [hb]
    · simp [ha]

theorem Resolve_default (E : Env) (r : Resource) (hdef : isDefaultRegistry E r = true) :
    Resolve E r =
      match loadCredentialFile E with
      | none => .ok Authenticator.Anonymous
      | some (.error err) => .error err
      | some (.ok cf) => resolveFromConfig cf r := by
  have hg := isGHCRRegistry_of_default E r hdef
  unfold Resolve loadCredentialFile
  simp only [hg, hdef, Bool.false_eq_true, if_false, if_true, Bool.not_true]
  by_cases hf : foundDockerConfig E = true
  · simp only [hf, if_true]
    cases E.ConfigLoad (E.Getenv "DOCKER_CONFIG") <;> simp
  · simp only [hf, Bool.false_eq_true, if_false]
    cases E.osOpen (E.filepathJoin (E.Getenv "XDG_RUNTIME_DIR") "containers/auth.json") with
    | error err => simp
    | ok f => cases hl : E.LoadFromReader f <;> simp [hl]

theorem Resolve_other (E : Env) (r : Resource) (hg : isGHCRRegistry E r = false)
    (hd : isDefaultRegistry E r = false) : Resolve E r = .ok Authenticator.Anonymous := by
  simp [Resolve, hg, hd]

theorem loadCredentialFile_none (E : Env) (h : noCredentialFile E) :
    loadCredentialFile E = none := by
  obtain ⟨h1, h2, err, h3⟩ := h
  have hf : foundDockerConfig E = false := by
    unfold foundDockerConfig
    cases hh : E.homedirDir with
    | error e =>
      by_cases hd : E.Getenv "DOCKER_CONFIG" = ""
      · simp [hd]
      · simp [hd, h2 hd]
    | ok home =>
      by_cases hd : E.Getenv "DOCKER_CONFIG" = ""
      · simp [hd, h1 home hh]
      · simp [hd, h2 hd, h1 home hh]
  simp [loadCredentialFile, hf, h3]

theorem resolveFromConfig_error_iff (cf : ConfigFile) (r : Resource) (err : GoError) :
    resolveFromConfig cf r = .error err ↔ lookupError cf r = some err := by
  rw [resolveFromConfig_eq]
  unfold lookupError
  cases cf.GetAuthConfig (authKey r.String) with
  | error e => simp
  | ok a =>
    by_cases ha : a.cleared = TypesAuthConfig.empty
    · simp only [ha, if_true]
      cases cf.GetAuthConfig (authKey r.RegistryStr) with
      | error e => simp
      | ok b => by_cases hb : b.cleared = TypesAuthConfig.empty <;> simp [hb]
    · simp [ha]

theorem authKey_of_default (E : Env) (r : Resource) (hdef : isDefaultRegistry E r = true)
    (hurl : E.urlParse ("https://" ++ name_DefaultRegistry) = .ok ⟨name_DefaultRegistry⟩) :
    authKey r.String = r.String := by
  unfold authKey
  split
  · rename_i heq
    exfalso
    unfold isDefaultRegistry at hdef
    rw [heq, hurl] at hdef
    revert hdef
    decide
  · rfl

theorem foundDockerConfig_iff (E : Env) : foundDockerConfig E = true ↔ configFound E := by
  unfold foundDockerConfig configFound
  cases hh : E.homedirDir with
  | error e =>
    by_cases hd : E.Getenv "DOCKER_CONFIG" = "" <;> simp [hd]
  | ok home =>
    by_cases hd : E.Getenv "DOCKER_CONFIG" = ""
    · simp [hd]
    · cases hfe : fileExists E (E.filepathJoin home ".docker/config.json") <;> simp [hd, hfe]

theorem loadCredentialFile_iff (E : Env) (res : Except GoError ConfigFile) :
    loadCredentialFile E = some res ↔ LoadsConfig E res := by
  unfold loadCredentialFile LoadsConfig
  rw [← foundDockerConfig_iff]
  by_cases hf : foundDockerConfig E = true
  · simp [hf]
  · simp only [hf, Bool.false_eq_true, if_false, false_and, false_or, not_false_eq_true,
      true_and]
    cases E.osOpen (E.filepathJoin (E.Getenv "XDG_RUNTIME_DIR") "containers/auth.json") with
    | error e => simp
    | ok f => simp

/-! ## The claims on `Resolve` -/

/-- C8. For a resource whose host is `ghcr.io`: with `GITHUB_TOKEN` and `GITHUB_ACTOR` both
non-empty `Resolve` returns, without error, the authenticator built from exactly that user
name and that token as password; with `GITHUB_TOKEN` empty or unset it returns the anonymous
authenticator without error; and the result is the same in every environment with the same
variables and the same URL parsing, whatever its home directory, files and credential files
are. -/
theorem Resolve_ghcr (E : Env) (r : Resource) (hghcr : isGHCRRegistry E r = true) :
    (E.Getenv "GITHUB_TOKEN" ≠ "" → E.Getenv "GITHUB_ACTOR" ≠ "" →
      Resolve E r = .ok (Authenticator.FromConfig
        { Username := E.Getenv "GITHUB_ACTOR", Password := E.Getenv "GITHUB_TOKEN", Auth := "",
          IdentityToken := "", RegistryToken := "" })) ∧
    (E.Getenv "GITHUB_TOKEN" = "" → Resolve E r = .ok Authenticator.Anonymous) ∧
    (∀ E2 : Env, E2.Getenv = E.Getenv → E2.urlParse = E.urlParse →
      Resolve E2 r = Resolve E r) := by
  refine ⟨?_, ?_, ?_⟩
  · intro ht ha
    simp [Resolve, hghcr, ht, ha]
  · intro ht
    simp [Resolve, hghcr, ht]
  · intro E2 hget hurl
    have hg2 : isGHCRRegistry E2 r = true := by
      unfold isGHCRRegistry at hghcr ⊢
      rw [hurl]
      exact hghcr
    simp [Resolve, hghcr, hg2, hget]

/-- C8, at a concrete input: `ghcr.io` in a CI environment with actor and token. -/
theorem Resolve_ghcr_witness :
    isGHCRRegistry exEnvCI ⟨"ghcr.io", "ghcr.io"⟩ = true ∧
    Resolve exEnvCI ⟨"ghcr.io", "ghcr.io"⟩ =
      .ok (Authenticator.FromConfig
        { Username := "octocat", Password := "t0ken", Auth := "", IdentityToken := "",
          RegistryToken := "" }) :=
  ⟨by decide,
   ((Resolve_ghcr exEnvCI ⟨"ghcr.io", "ghcr.io"⟩ (by decide)).1 (by decide) (by decide)).trans
     (by decide)⟩

/-- C9. For a default-registry resource and a credential file that was loaded without error:
if the lookup under the host key `r.String()` yields an entry that is not empty once its
server address is cleared, `Resolve` returns the authenticator carrying the user name,
password, auth blob, identity token and registry token of that entry (and no server
address), whatever the file holds under the registry key; the lookup under the registry key
`r.RegistryStr()` (mapped to `DefaultAuthKey` when it is `name.DefaultRegistry`) decides the
result only when the host lookup yields an empty entry. The hypothesis `hurl` records that
`url.Parse` gives `https://index.docker.io` the host name `index.docker.io`. -/
theorem Resolve_default_exact_host (E : Env) (r : Resource) (cf : ConfigFile)
    (hdef : isDefaultRegistry E r = true)
    (hurl : E.urlParse ("https://" ++ name_DefaultRegistry) = .ok ⟨name_DefaultRegistry⟩)
    (hload : loadCredentialFile E = some (.ok cf)) :
    (∀ entry, cf.GetAuthConfig r.String = .ok entry →
      entry.cleared ≠ TypesAuthConfig.empty →
      Resolve E r = .ok (Authenticator.FromConfig entry.toAuthn)) ∧
    (∀ entry, cf.GetAuthConfig r.String = .ok entry →
      entry.cleared = TypesAuthConfig.empty →
      Resolve E r =
        match cf.GetAuthConfig (authKey r.RegistryStr) with
        | .error err => .error err
        | .ok other =>
          if other.cleared = TypesAuthConfig.empty then .ok Authenticator.Anonymous
          else .ok (Authenticator.FromConfig other.toAuthn)) := by
  have hkey := authKey_of_default E r hdef hurl
  refine ⟨?_, ?_⟩
  · intro entry hentry hne
    rw [Resolve_default E r hdef, hload]
    simp only
    rw [resolveFromConfig_eq, hkey, hentry]
    simp [hne]
  · intro entry hentry he
    rw [Resolve_default E r hdef, hload]
    simp only
    rw [resolveFromConfig_eq, hkey, hentry]
    simp [he]

/-- C9, at a concrete input: `docker.io` with a credential file in the home directory that
holds an entry under `docker.io`. -/
theorem Resolve_default_exact_host_witness :
    isDefaultRegistry (exEnvDocker (.ok exConfigFile)) ⟨"index.docker.io", "docker.io"⟩ = true ∧
    Resolve (exEnvDocker (.ok exConfigFile)) ⟨"index.docker.io", "docker.io"⟩ =
      .ok (Authenticator.FromConfig
        { Username := "user", Password := "secret", Auth := "", IdentityToken := "",
          RegistryToken := "" }) :=
  ⟨by decide,
   (Resolve_default_exact_host (exEnvDocker (.ok exConfigFile))
      ⟨"index.docker.io", "docker.io"⟩ exConfigFile (by decide) rfl rfl).1
      ⟨"user", "secret", "", "user@example.com", "docker.io", "", ""⟩ rfl (by decide)⟩

/-- C10 fails as stated, at two inputs. First, for `docker.io` with a malformed `config.json`
found in the home directory while `DOCKER_CONFIG` names a directory without `config.json`:
the file that was found is malformed, yet `Resolve` loads the configuration of the
`DOCKER_CONFIG` directory and returns the anonymous authenticator and no error. Second, for
`ghcr.io` with a token in the environment and no credential file at any of the three
locations, `Resolve` returns the token authenticator, not the anonymous one. -/
theorem Resolve_found_malformed_file_no_error :
    (isDefaultRegistry (exEnvFS exGetenvDockerConfig exMalformedHome)
        ⟨"index.docker.io", "docker.io"⟩ = true ∧
      fileExists (exEnvFS exGetenvDockerConfig exMalformedHome)
        ((exEnvFS exGetenvDockerConfig exMalformedHome).filepathJoin "/home/u"
          ".docker/config.json") = true ∧
      exMalformedHome "/home/u/.docker/config.json" = some "not json" ∧
      exParse "not json" = .error (GoError.leaf "invalid character") ∧
      Resolve (exEnvFS exGetenvDockerConfig exMalformedHome) ⟨"index.docker.io", "docker.io"⟩ =
        .ok Authenticator.Anonymous) ∧
    (noCredentialFile exEnvCI ∧
      Resolve exEnvCI ⟨"ghcr.io", "ghcr.io"⟩ =
        .ok (Authenticator.FromConfig
          { Username := "octocat", Password := "t0ken", Auth := "", IdentityToken := "",
            RegistryToken := "" }) ∧
      Resolve exEnvCI ⟨"ghcr.io", "ghcr.io"⟩ ≠ .ok Authenticator.Anonymous) :=
  ⟨⟨by decide, by decide, by decide, by simp [exParse], by decide⟩,
   ⟨⟨fun _ _ => rfl, fun _ => rfl, ⟨_, rfl⟩⟩, by decide, by decide⟩⟩

/-- C10, amended. `Resolve` returns the error `err` exactly when the host is the default
registry and the credential configuration it loads is malformed: loading it fails with `err`,
or the entry lookup in the loaded configuration fails with `err`. The configuration loaded
is what `Config.Load` gives for the directory `DOCKER_CONFIG` names when a `config.json` is
found in the home directory or in that directory (whichever file was found), and the parsed
`auth.json` of the runtime directory when none is found and that file opens. So when a
`config.json` is found, `Config.Load` succeeds and the lookups in its result do not fail,
`Resolve` returns no error. When no credential file exists at any of the three locations and
the host is not `ghcr.io`, `Resolve` returns the anonymous authenticator without error; for
a host that is neither `ghcr.io` nor the default registry it always does. -/
theorem Resolve_error_iff (E : Env) (r : Resource) :
    (∀ err, Resolve E r = .error err ↔
      (isDefaultRegistry E r = true ∧
        (LoadsConfig E (.error err) ∨
          ∃ cf, LoadsConfig E (.ok cf) ∧ lookupError cf r = some err))) ∧
    (configFound E → ∀ cf, E.ConfigLoad (E.Getenv "DOCKER_CONFIG") = .ok cf →
      lookupError cf r = none → ∀ err, Resolve E r ≠ .error err) ∧
    (isGHCRRegistry E r = false → noCredentialFile E →
      Resolve E r = .ok Authenticator.Anonymous) ∧
    (isGHCRRegistry E r = false → isDefaultRegistry E r = false →
      Resolve E r = .ok Authenticator.Anonymous) := by
  have hiff : ∀ err, Resolve E r = .error err ↔
      (isDefaultRegistry E r = true ∧
        (LoadsConfig E (.error err) ∨
          ∃ cf, LoadsConfig E (.ok cf) ∧ lookupError cf r = some err)) := by
    intro err
    simp only [← loadCredentialFile_iff]
    by_cases hdef : isDefaultRegistry E r = true
    · rw [Resolve_default E r hdef]
      cases hl : loadCredentialFile E with
      | none => simp [hdef]
      | some res =>
        cases res with
        | error e => simp [hdef]
        | ok cf => simp [hdef, resolveFromConfig_error_iff]
    · by_cases hg : isGHCRRegistry E r = true
      · constructor
        · intro h
          simp only [Resolve, hg, if_true, Bool.not_true, Bool.false_eq_true, if_false] at h
          split at h <;> cases h
        · intro h
          exact absurd h.1 hdef
      · simp only [Bool.not_eq_true] at hdef hg
        simp [Resolve_other E r hg hdef, hdef]
  refine ⟨hiff, ?_, ?_, ?_⟩
  · intro hfound cf hcf hlook err herr
    rcases ((hiff err).1 herr).2 with hload | ⟨cf2, hload, hl2⟩
    · rcases hload with ⟨_, h2⟩ | ⟨h1, _⟩
      · rw [hcf] at h2
        cases h2
      · exact h1 hfound
    · rcases hload with ⟨_, h2⟩ | ⟨h1, _⟩
      · rw [hcf] at h2
        cases h2
        rw [hlook] at hl2
        cases hl2
      · exact h1 hfound
  · intro hg hno
    by_cases hdef : isDefaultRegistry E r = true
    · rw [Resolve_default E r hdef, loadCredentialFile_none E hno]
    · simp only [Bool.not_eq_true] at hdef
      exact Resolve_other E r hg hdef
  · intro hg hdef
    exact Resolve_other E r hg hdef

/-- C10 amended, at a concrete input: with `DOCKER_CONFIG` unset, a `config.json` in the home
directory that does not parse makes `Resolve` fail with the parse error for `docker.io`. -/
theorem Resolve_error_iff_witness :
    configFound (exEnvFS (fun _ => "") exMalformedHome) ∧
    Resolve (exEnvFS (fun _ => "") exMalformedHome) ⟨"index.docker.io", "docker.io"⟩ =
      .error (GoError.leaf "invalid character") :=
  ⟨Or.inl ⟨"/home/u", rfl, by decide⟩,
   ((Resolve_error_iff (exEnvFS (fun _ => "") exMalformedHome)
      ⟨"index.docker.io", "docker.io"⟩).1 (GoError.leaf "invalid character")).2
    ⟨by decide,
     Or.inl (Or.inl ⟨Or.inl ⟨"/home/u", rfl, by decide⟩,
       by simp [exEnvFS, exMalformedHome, exParse]⟩)⟩⟩

end Kyverno
